import Mathlib

/-!
Shallow embedding of the quiz-content and attempt-scoring subsystem of the
quizmaker application, together with proofs checking the natural-language
specification against it.

The embedding follows the TypeScript source:
  * `src/lib/services/quiz.service.ts`      → namespace `QuizService`
  * `src/lib/services/question.service.ts`  → namespace `QuestionService`
  * `src/lib/services/choice.service.ts`    → namespace `ChoiceService`
  * the attempt service (bundled in `auth.service.ts`) → namespace `AttemptService`
  * the quiz server actions (`createQuiz`/`updateQuiz`/`deleteQuiz`) → namespace `QuizActions`
  * `src/lib/schemas/quiz.schema.ts`        → namespace `QuizSchema`

Storage model: the D1 persistence gateway executes one mutating statement (or
one batch) atomically; a statement either fully applies or fails leaving the
database unchanged, and an error aborts the surrounding service call at that
point (earlier statements of the same call remain applied, mirroring the
absence of a cross-statement transaction in the source).  Reads never fail in
this model.  `St.faults` is the schedule of outcomes for the successive
mutating statements; the empty schedule means every statement succeeds.

Timestamps and all SQL INTEGER columns are embedded as `Int`; the REAL column
`percentage` is embedded as `Rat` (the scoring arithmetic is a single exact
division); SQL TEXT as `String`; nullable columns as `Option`.  JavaScript
truthiness tests on strings and numbers are embedded explicitly (`jsOrNullStr`,
`jsOrInt`).
-/

namespace QuizApp

/-- JavaScript `v || null` on a possibly-absent string: `undefined` and the
empty string collapse to `null`. -/
def jsOrNullStr (v : Option String) : Option String :=
  match v with
  | some s => if s == "" then none else some s
  | none => none

/-- JavaScript `v || d` on a possibly-absent number: `undefined` and `0` fall
back to the default. -/
def jsOrInt (v : Option Int) (d : Int) : Int :=
  match v with
  | some n => if n == 0 then d else n
  | none => d

/-- JavaScript `String.prototype.trim`, implemented structurally on the
character list so that concrete runs evaluate by `decide`. -/
def jsTrim (s : String) : String :=
  ⟨((s.data.dropWhile Char.isWhitespace).reverse.dropWhile Char.isWhitespace).reverse⟩

/-- `generateId` of `d1-client.ts`, made deterministic: the n-th generated
identifier.  The source uses `crypto.randomUUID()`; the model only relies on
the ids being pairwise distinct and (by hypothesis where needed) fresh. -/
def genId (n : Nat) : String := "g" ++ toString n

/-- The n consecutive identifiers generated starting at counter value `start`. -/
def genIds : Nat → Nat → List String
  | _, 0 => []
  | start, k + 1 => genId start :: genIds (start + 1) k

/-- Stable insertion of `x` after every earlier element `y` with `le y x`;
used to model SQL `ORDER BY`. -/
def sortInsert (le : α → α → Bool) (x : α) : List α → List α
  | [] => [x]
  | y :: ys => if le y x then y :: sortInsert le x ys else x :: y :: ys

/-- Stable sort modelling SQL `ORDER BY` (the comparator is the column's
`≤`); structurally recursive so concrete runs evaluate by `decide`. -/
def sortBy (le : α → α → Bool) : List α → List α
  | [] => []
  | x :: xs => sortInsert le x (sortBy le xs)

/-- Row of the `quizzes` table (migration 0003). -/
structure QuizRow where
  id : String
  title : String
  description : Option String
  instructions : Option String
  created_by : String
  created_at : Int
  updated_at : Int
  is_active : Int
deriving DecidableEq, Repr, Inhabited

/-- Row of the `questions` table (migration 0004). -/
structure QuestionRow where
  id : String
  quiz_id : String
  question_text : String
  question_order : Int
  points : Int
  created_at : Int
  updated_at : Int
deriving DecidableEq, Repr, Inhabited

/-- Row of the `choices` table (migration 0005). -/
structure ChoiceRow where
  id : String
  question_id : String
  choice_text : String
  choice_order : Int
  is_correct : Int
  created_at : Int
  updated_at : Int
deriving DecidableEq, Repr, Inhabited

/-- Row of the `attempts` table (migration 0006). -/
structure AttemptRow where
  id : String
  user_id : String
  quiz_id : String
  score : Int
  total_points : Int
  percentage : Rat
  started_at : Int
  submitted_at : Option Int
  time_taken_seconds : Option Int
deriving DecidableEq, Repr, Inhabited

/-- Row of the `attempt_responses` table (migration 0007). -/
structure ResponseRow where
  id : String
  attempt_id : String
  question_id : String
  choice_id : Option String
  is_correct : Int
  points_earned : Int
deriving DecidableEq, Repr, Inhabited

/-- The relational store: the five in-scope tables. -/
structure DB where
  quizzes : List QuizRow
  questions : List QuestionRow
  choices : List ChoiceRow
  attempts : List AttemptRow
  attemptResponses : List ResponseRow
deriving DecidableEq, Repr

/-- State threaded through the services: the database, the id-generator
counter, and the fault schedule for mutating statements. -/
structure St where
  db : DB
  nextId : Nat
  faults : List Bool
deriving DecidableEq, Repr

/-- The error taxonomy: one constructor per distinct throw/return-error site
reached by the embedded functions. -/
inductive Err where
  | storage
  | authRequired
  | notOwner
  | validation
  | quizNotFound
  | failedCreateQuiz
  | failedRetrieveQuiz
  | noQuestions
  | questionNoChoices
  | failedCreateAttempt
  | attemptNotFound
  | alreadySubmitted
  | typeError
  | failedUpdateAttempt
deriving DecidableEq, Repr

/-- One mutating statement (or one atomic batch) against the store: applies
`f` atomically, or fails leaving the database unchanged, as prescribed by the
fault schedule (empty schedule = success). -/
def mutStep (s : St) (f : DB → DB) : St × Except Err Unit :=
  match s.faults with
  | [] => ({ s with db := f s.db }, .ok ())
  | b :: rest =>
      if b then ({ s with db := f s.db, faults := rest }, .ok ())
      else ({ s with faults := rest }, .error .storage)

end QuizApp

namespace QuizService

open QuizApp

/-- `quiz.service.ts getQuizById`: `SELECT * FROM quizzes WHERE id = ?1 AND
is_active = 1`, first row or null. -/
def getQuizById (db : DB) (quizId : String) : Option QuizRow :=
  (db.quizzes.filter (fun q => q.id == quizId && q.is_active == 1)).head?

/-- Quiz annotated with its question count, as produced by the `listAll`
aggregation query. -/
structure QuizWithCount where
  quiz : QuizRow
  question_count : Nat
deriving DecidableEq, Repr

/-- `quiz.service.ts getAllQuizzes`: active quizzes left-joined with their
question count, ordered by `created_at` descending. -/
def getAllQuizzes (db : DB) : List QuizWithCount :=
  sortBy (fun a b => decide (b.quiz.created_at ≤ a.quiz.created_at))
    ((db.quizzes.filter (fun q => q.is_active == 1)).map
      (fun q => ⟨q, (db.questions.filter (fun qu => qu.quiz_id == q.id)).length⟩))

/-- `quiz.service.ts createQuiz`: generate an id, insert the row (with
`description || null` / `instructions || null` and `is_active = 1`), then
re-read it. -/
def createQuiz (s : St) (title : String) (description instructions : Option String)
    (createdBy : String) (now : Int) : St × Except Err QuizRow :=
  let quizId := genId s.nextId
  let s1 : St := { s with nextId := s.nextId + 1 }
  let row : QuizRow :=
    ⟨quizId, title, jsOrNullStr description, jsOrNullStr instructions, createdBy, now, now, 1⟩
  let step := mutStep s1 (fun db => { db with quizzes := db.quizzes ++ [row] })
  match step.2 with
  | .error e => (step.1, .error e)
  | .ok _ =>
      match getQuizById step.1.db quizId with
      | none => (step.1, .error .failedCreateQuiz)
      | some q => (step.1, .ok q)

/-- Effect of the `deleteQuiz` UPDATE statement: soft delete, setting
`is_active = 0` and refreshing `updated_at` on rows matching the id. -/
def applyDeleteQuiz (db : DB) (quizId : String) (now : Int) : DB :=
  { db with
    quizzes := db.quizzes.map (fun q =>
      if q.id == quizId then { q with is_active := 0, updated_at := now } else q) }

/-- `quiz.service.ts deleteQuiz`: one UPDATE statement (soft delete). -/
def deleteQuiz (s : St) (quizId : String) (now : Int) : St × Except Err Unit :=
  mutStep s (fun db => applyDeleteQuiz db quizId now)

/-- Effect of the dynamic UPDATE statement of `quiz.service.ts updateQuiz` on
one row: fields that are present are overwritten (`description`/`instructions`
stored as `value || null`), `updated_at` is refreshed. -/
def applyUpdateRow (title description instructions : Option String) (now : Int)
    (q : QuizRow) : QuizRow :=
  { q with
    title := match title with | some t => t | none => q.title
    description := match description with
      | some d => jsOrNullStr (some d)
      | none => q.description
    instructions := match instructions with
      | some i => jsOrNullStr (some i)
      | none => q.instructions
    updated_at := now }

/-- Effect of the dynamic UPDATE statement of `quiz.service.ts updateQuiz`:
rows matching the id are rewritten by `applyUpdateRow`. -/
def applyUpdateQuiz (db : DB) (quizId : String) (title description instructions : Option String)
    (now : Int) : DB :=
  { db with
    quizzes := db.quizzes.map (fun q =>
      if q.id == quizId then applyUpdateRow title description instructions now q else q) }

/-- `quiz.service.ts updateQuiz`: dynamic UPDATE of the metadata fields that
are present; with no fields present it only re-reads the row; afterwards the
quiz is re-read and its absence is a `Quiz not found` error. -/
def updateQuiz (s : St) (quizId : String) (title description instructions : Option String)
    (now : Int) : St × Except Err QuizRow :=
  if title.isNone && description.isNone && instructions.isNone then
    match getQuizById s.db quizId with
    | none => (s, .error .quizNotFound)
    | some q => (s, .ok q)
  else
    let step := mutStep s (fun db => applyUpdateQuiz db quizId title description instructions now)
    match step.2 with
    | .error e => (step.1, .error e)
    | .ok _ =>
        match getQuizById step.1.db quizId with
        | none => (step.1, .error .quizNotFound)
        | some q => (step.1, .ok q)

/-- `quiz.service.ts isQuizOwner`: owner check through `getQuizById`, hence
false when the quiz is missing or inactive. -/
def isQuizOwner (db : DB) (quizId userId : String) : Bool :=
  match getQuizById db quizId with
  | none => false
  | some q => q.created_by == userId

end QuizService

namespace ChoiceService

open QuizApp

/-- `choice.service.ts getChoicesByQuestion`: `SELECT * FROM choices WHERE
question_id = ?1 ORDER BY choice_order ASC`. -/
def getChoicesByQuestion (db : DB) (questionId : String) : List ChoiceRow :=
  sortBy (fun a b => decide (a.choice_order ≤ b.choice_order))
    (db.choices.filter (fun c => c.question_id == questionId))

/-- `choice.service.ts getChoiceById`: `SELECT * FROM choices WHERE id = ?1`. -/
def getChoiceById (db : DB) (choiceId : String) : Option ChoiceRow :=
  (db.choices.filter (fun c => c.id == choiceId)).head?

/-- Input record of `createChoicesBatch`. -/
structure ChoiceToCreate where
  questionId : String
  choiceText : String
  choiceOrder : Int
  isCorrect : Bool
deriving DecidableEq, Repr

/-- The rows inserted by `createChoicesBatch`, with ids generated from counter
value `start` in input order and `is_correct` stored as 0/1. -/
def buildChoiceRows : Nat → List ChoiceToCreate → Int → List ChoiceRow
  | _, [], _ => []
  | start, it :: rest, now =>
      ⟨genId start, it.questionId, it.choiceText, it.choiceOrder,
        if it.isCorrect then 1 else 0, now, now⟩ :: buildChoiceRows (start + 1) rest now

/-- `choice.service.ts createChoicesBatch`: generate one id per input record
and insert all rows in one atomic batch, returning the ids. -/
def createChoicesBatch (s : St) (items : List ChoiceToCreate) (now : Int) :
    St × Except Err (List String) :=
  let ids := genIds s.nextId items.length
  let rows := buildChoiceRows s.nextId items now
  let s1 : St := { s with nextId := s.nextId + items.length }
  let step := mutStep s1 (fun db => { db with choices := db.choices ++ rows })
  match step.2 with
  | .error e => (step.1, .error e)
  | .ok _ => (step.1, .ok ids)

end ChoiceService

namespace QuestionService

open QuizApp

/-- `question.service.ts getQuestionById`: `SELECT * FROM questions WHERE
id = ?1`. -/
def getQuestionById (db : DB) (questionId : String) : Option QuestionRow :=
  (db.questions.filter (fun q => q.id == questionId)).head?

/-- `question.service.ts getQuestionsByQuiz`: `SELECT * FROM questions WHERE
quiz_id = ?1 ORDER BY question_order ASC`. -/
def getQuestionsByQuiz (db : DB) (quizId : String) : List QuestionRow :=
  sortBy (fun a b => decide (a.question_order ≤ b.question_order))
    (db.questions.filter (fun q => q.quiz_id == quizId))

/-- Effect of the `deleteQuestion` DELETE statement together with the foreign
keys declared in the migrations: `choices.question_id` ON DELETE CASCADE
(migration 0005), `attempt_responses.question_id` ON DELETE CASCADE and
`attempt_responses.choice_id` ON DELETE SET NULL (migration 0007). -/
def applyDeleteQuestion (db : DB) (questionId : String) : DB :=
  let removedChoiceIds :=
    (db.choices.filter (fun c => c.question_id == questionId)).map (fun c => c.id)
  { db with
    questions := db.questions.filter (fun q => !(q.id == questionId))
    choices := db.choices.filter (fun c => !(c.question_id == questionId))
    attemptResponses :=
      (db.attemptResponses.filter (fun r => !(r.question_id == questionId))).map
        (fun r =>
          match r.choice_id with
          | some c => if removedChoiceIds.contains c then { r with choice_id := none } else r
          | none => r) }

/-- `question.service.ts deleteQuestion`: one DELETE statement (cascading per
the schema). -/
def deleteQuestion (s : St) (questionId : String) : St × Except Err Unit :=
  mutStep s (fun db => applyDeleteQuestion db questionId)

/-- Cumulative effect of deleting a list of questions one by one, as the
`updateQuiz` action's deletion loop does. -/
def applyDeleteQuestions (db : DB) : List String → DB
  | [] => db
  | qid :: rest => applyDeleteQuestions (applyDeleteQuestion db qid) rest

/-- Input record of `createQuestionsBatch`. -/
structure QuestionToCreate where
  quizId : String
  questionText : String
  questionOrder : Int
  points : Option Int
deriving DecidableEq, Repr

/-- The rows inserted by `createQuestionsBatch`, with ids generated from
counter value `start` in input order and `points || 1` applied. -/
def buildQuestionRows : Nat → List QuestionToCreate → Int → List QuestionRow
  | _, [], _ => []
  | start, it :: rest, now =>
      ⟨genId start, it.quizId, it.questionText, it.questionOrder,
        jsOrInt it.points 1, now, now⟩ :: buildQuestionRows (start + 1) rest now

/-- `question.service.ts createQuestionsBatch`: generate one id per input
record and insert all rows in one atomic batch, returning the ids. -/
def createQuestionsBatch (s : St) (items : List QuestionToCreate) (now : Int) :
    St × Except Err (List String) :=
  let ids := genIds s.nextId items.length
  let rows := buildQuestionRows s.nextId items now
  let s1 : St := { s with nextId := s.nextId + items.length }
  let step := mutStep s1 (fun db => { db with questions := db.questions ++ rows })
  match step.2 with
  | .error e => (step.1, .error e)
  | .ok _ => (step.1, .ok ids)

end QuestionService

namespace AttemptService

open QuizApp

/-- Per-question scoring record (`QuestionResult` of the attempt service). -/
structure QuestionResult where
  questionId : String
  isCorrect : Bool
  pointsEarned : Int
  selectedChoiceId : Option String
  correctChoiceId : Option String
deriving DecidableEq, Repr, Inhabited

/-- Overall scoring record (`ScoringResult` of the attempt service). -/
structure ScoringResult where
  score : Int
  totalPoints : Int
  percentage : Rat
  questionResults : List QuestionResult
deriving DecidableEq, Repr

/-- One submitted `{questionId, choiceId}` entry of the `responses` argument
of `submitAttempt`. -/
structure Submitted where
  questionId : String
  choiceId : String
deriving DecidableEq, Repr

/-- A JavaScript `Map<string, string>` as an ordered association list. -/
abbrev RMap := List (String × String)

/-- JavaScript `Map.set`: overwrite in place when the key exists, append
otherwise. -/
def mapSet (m : RMap) (k v : String) : RMap :=
  if m.any (fun p => p.1 == k) then m.map (fun p => if p.1 == k then (k, v) else p)
  else m ++ [(k, v)]

/-- JavaScript `Map.get`: the value at the key, or `undefined`. -/
def mapGet (m : RMap) (k : String) : Option String :=
  (m.find? (fun p => p.1 == k)).map (fun p => p.2)

/-- The `responses.forEach((r) => responseMap.set(...))` loop of
`submitAttempt`. -/
def buildResponseMap (rs : List Submitted) : RMap :=
  rs.foldl (fun m r => mapSet m r.questionId r.choiceId) []

/-- `attempt.service getAttemptById`: `SELECT * FROM attempts WHERE id = ?1`. -/
def getAttemptById (db : DB) (attemptId : String) : Option AttemptRow :=
  (db.attempts.filter (fun a => a.id == attemptId)).head?

/-- The JavaScript value of `selectedChoiceId ? choices.find(...) : null`:
`null`, `undefined` (truthy id matching no choice), or a choice. -/
inductive JSLookup where
  | jnull
  | jundefined
  | jval (c : ChoiceRow)
deriving DecidableEq, Repr

/-- Evaluates `selectedChoiceId ? choices.find((c) => c.id === selectedChoiceId)
: null` from `calculateScore`. -/
def jsFindChoice (choices : List ChoiceRow) (sel : Option String) : JSLookup :=
  match sel with
  | none => .jnull
  | some cid =>
      if cid == "" then .jnull
      else
        match choices.find? (fun c => c.id == cid) with
        | some c => .jval c
        | none => .jundefined

/-- `correctChoices.length > 0 ? correctChoices[0].id : null` from
`calculateScore`: the first choice (in `choice_order` order) flagged correct. -/
def firstCorrect (choices : List ChoiceRow) : Option String :=
  match choices.filter (fun c => c.is_correct == 1) with
  | [] => none
  | c :: _ => some c.id

/-- The `for (const question of questions)` loop of `calculateScore`, with the
`score`, `totalPoints` and `questionResults` accumulators.  The branch where
`choices.find` returned `undefined` evaluates `selectedChoice.is_correct` on
`undefined` (the guard is `selectedChoice !== null`, and `undefined !== null`
holds in JavaScript), raising a `TypeError`. -/
def calcLoop (db : DB) (m : RMap) :
    List QuestionRow → Int → Int → List QuestionResult →
    Except Err (Int × Int × List QuestionResult)
  | [], score, totalPoints, acc => .ok (score, totalPoints, acc)
  | q :: rest, score, totalPoints, acc =>
      let totalPoints := totalPoints + q.points
      let selectedChoiceId := mapGet m q.id
      let choices := ChoiceService.getChoicesByQuestion db q.id
      if choices.isEmpty then
        calcLoop db m rest score totalPoints
          (acc ++ [⟨q.id, false, 0, jsOrNullStr selectedChoiceId, none⟩])
      else
        match jsFindChoice choices selectedChoiceId with
        | .jundefined => .error .typeError
        | .jnull =>
            calcLoop db m rest score totalPoints
              (acc ++ [⟨q.id, false, 0, jsOrNullStr selectedChoiceId, firstCorrect choices⟩])
        | .jval c =>
            let isCorrect := c.is_correct == 1
            let pointsEarned := if isCorrect then q.points else 0
            calcLoop db m rest (score + pointsEarned) totalPoints
              (acc ++ [⟨q.id, isCorrect, pointsEarned, jsOrNullStr selectedChoiceId,
                firstCorrect choices⟩])

/-- `attempt.service calculateScore`: scores the quiz's questions (in
`question_order` order) against the response map, then computes
`percentage = totalPoints > 0 ? score / totalPoints * 100 : 0`. -/
def calculateScore (db : DB) (quizId : String) (m : RMap) : Except Err ScoringResult :=
  match calcLoop db m (QuestionService.getQuestionsByQuiz db quizId) 0 0 [] with
  | .error e => .error e
  | .ok (score, totalPoints, results) =>
      .ok ⟨score, totalPoints,
        if totalPoints > 0 then ((score : Rat) / (totalPoints : Rat)) * 100 else 0,
        results⟩

/-- `attempt.service startAttempt`: generate the attempt id, load the quiz's
questions, reject an empty quiz or any question without choices, compute
`totalPoints`, insert the row (`score = 0`, `percentage = 0`,
`submitted_at = NULL`, `started_at = now`), then re-read it. -/
def startAttempt (s : St) (userId quizId : String) (now : Int) : St × Except Err AttemptRow :=
  let attemptId := genId s.nextId
  let s1 : St := { s with nextId := s.nextId + 1 }
  let questions := QuestionService.getQuestionsByQuiz s1.db quizId
  if questions.isEmpty then (s1, .error .noQuestions)
  else
    match questions.find? (fun q => (ChoiceService.getChoicesByQuestion s1.db q.id).isEmpty) with
    | some _ => (s1, .error .questionNoChoices)
    | none =>
        let totalPoints := questions.foldl (fun acc q => acc + q.points) 0
        let row : AttemptRow := ⟨attemptId, userId, quizId, 0, totalPoints, 0, now, none, none⟩
        let step := mutStep s1 (fun db => { db with attempts := db.attempts ++ [row] })
        match step.2 with
        | .error e => (step.1, .error e)
        | .ok _ =>
            match getAttemptById step.1.db attemptId with
            | none => (step.1, .error .failedCreateAttempt)
            | some a => (step.1, .ok a)

/-- The rows inserted by the response batch of `submitAttempt`: one row per
question result, ids generated from counter value `start` in order, with
`is_correct` stored as 0/1. -/
def buildResponseRows : Nat → String → List QuestionResult → List ResponseRow
  | _, _, [] => []
  | start, attemptId, r :: rest =>
      ⟨genId start, attemptId, r.questionId, r.selectedChoiceId,
        if r.isCorrect then 1 else 0, r.pointsEarned⟩ ::
        buildResponseRows (start + 1) attemptId rest

/-- Effect of the finalize statement of `submitAttempt`: `UPDATE attempts SET
score = ?1, percentage = ?2, submitted_at = ?3, time_taken_seconds = ?4 WHERE
id = ?5` — the WHERE clause matches on the id alone (no `submitted_at IS NULL`
condition). -/
def finalizeAttemptUpdate (db : DB) (attemptId : String) (score : Int) (percentage : Rat)
    (now : Int) (timeTaken : Option Int) : DB :=
  { db with
    attempts := db.attempts.map (fun a =>
      if a.id == attemptId then
        { a with
          score := score
          percentage := percentage
          submitted_at := some now
          time_taken_seconds := timeTaken }
      else a) }

/-- The read/compute phase of `submitAttempt` (everything before its first
write): load the attempt, reject a missing or already-submitted attempt, build
the response map, and score. -/
def submitAttemptRead (db : DB) (attemptId : String) (responses : List Submitted) :
    Except Err (AttemptRow × ScoringResult) :=
  match getAttemptById db attemptId with
  | none => .error .attemptNotFound
  | some attempt =>
      if attempt.submitted_at.isSome then .error .alreadySubmitted
      else
        match calculateScore db attempt.quiz_id (buildResponseMap responses) with
        | .error e => .error e
        | .ok r => .ok (attempt, r)

/-- The write phase of `submitAttempt`: compute `timeTaken = attempt.started_at
? now - attempt.started_at : null`, batch-insert one response row per question
result, run the finalize UPDATE, and re-read the attempt. -/
def submitAttemptWrite (s : St) (attemptId : String) (attempt : AttemptRow)
    (r : ScoringResult) (now : Int) : St × Except Err (AttemptRow × ScoringResult) :=
  let timeTaken : Option Int :=
    if attempt.started_at == 0 then none else some (now - attempt.started_at)
  let rows := buildResponseRows s.nextId attemptId r.questionResults
  let s1 : St := { s with nextId := s.nextId + r.questionResults.length }
  let step1 := mutStep s1 (fun db => { db with attemptResponses := db.attemptResponses ++ rows })
  match step1.2 with
  | .error e => (step1.1, .error e)
  | .ok _ =>
      let step2 := mutStep step1.1 (fun db =>
        finalizeAttemptUpdate db attemptId r.score r.percentage now timeTaken)
      match step2.2 with
      | .error e => (step2.1, .error e)
      | .ok _ =>
          match getAttemptById step2.1.db attemptId with
          | none => (step2.1, .error .failedUpdateAttempt)
          | some updated => (step2.1, .ok (updated, r))

/-- `attempt.service submitAttempt`: the sequential composition of the read
phase and the write phase.  (The phases are split so that the interleaving of
two concurrent submissions — each suspends at every storage call — can be
expressed; a single sequential call is exactly this composition.) -/
def submitAttempt (s : St) (attemptId : String) (responses : List Submitted) (now : Int) :
    St × Except Err (AttemptRow × ScoringResult) :=
  match submitAttemptRead s.db attemptId responses with
  | .error e => (s, .error e)
  | .ok (attempt, r) => submitAttemptWrite s attemptId attempt r now

/-- `attempt.service getAttemptResponses`: `SELECT * FROM attempt_responses
WHERE attempt_id = ?1`. -/
def getAttemptResponses (db : DB) (attemptId : String) : List ResponseRow :=
  db.attemptResponses.filter (fun r => r.attempt_id == attemptId)

/-- The per-response record rebuilt by `getAttemptResults`, re-deriving
`correctChoiceId` from the question's current choices
(`correctChoice?.id || null`). -/
def rebuildResult (db : DB) (r : ResponseRow) : QuestionResult :=
  let choices := ChoiceService.getChoicesByQuestion db r.question_id
  let correctChoice := choices.find? (fun c => c.is_correct == 1)
  ⟨r.question_id, r.is_correct == 1, r.points_earned, r.choice_id,
    jsOrNullStr (correctChoice.map (fun c => c.id))⟩

/-- The `for (const response of responses)` loop of `getAttemptResults`: a
response whose `question_id` resolves to no existing question is skipped
(`if (!question) continue`). -/
def resultsLoop (db : DB) : List ResponseRow → List QuestionResult
  | [] => []
  | r :: rest =>
      match QuestionService.getQuestionById db r.question_id with
      | none => resultsLoop db rest
      | some _ => rebuildResult db r :: resultsLoop db rest

/-- `attempt.service getAttemptResults`: the attempt, all of its stored
response rows, and the rebuilt per-question results. -/
def getAttemptResults (db : DB) (attemptId : String) :
    Except Err (AttemptRow × List ResponseRow × List QuestionResult) :=
  match getAttemptById db attemptId with
  | none => .error .attemptNotFound
  | some attempt =>
      let responses := getAttemptResponses db attemptId
      .ok (attempt, responses, resultsLoop db responses)

end AttemptService

namespace QuizSchema

open QuizApp

/-- Raw choice object as extracted from the submitted JSON. -/
structure RawChoice where
  choiceText : String
  isCorrect : Bool
deriving DecidableEq, Repr

/-- Raw question object as extracted from the submitted JSON. -/
structure RawQuestion where
  questionText : String
  points : Option Int
  choices : List RawChoice
deriving DecidableEq, Repr

/-- A choice accepted by `ChoiceSchema` (text trimmed by the schema). -/
structure ChoiceInput where
  choiceText : String
  isCorrect : Bool
deriving DecidableEq, Repr

/-- A question accepted by `QuestionSchema`. -/
structure QuestionInput where
  questionText : String
  points : Option Int
  choices : List ChoiceInput
deriving DecidableEq, Repr

/-- `ChoiceSchema`: `choiceText` length 1..500 (checked before `.trim()`
transforms it), `isCorrect` boolean. -/
def parseChoice (c : RawChoice) : Except Err ChoiceInput :=
  if c.choiceText.length ≥ 1 && c.choiceText.length ≤ 500 then
    .ok ⟨jsTrim c.choiceText, c.isCorrect⟩
  else .error .validation

/-- `QuestionSchema`: text length 1..1000 then trimmed, optional positive
integer `points`, 2..4 choices with at least one marked correct. -/
def parseQuestion (q : RawQuestion) : Except Err QuestionInput := do
  if !(q.questionText.length ≥ 1 && q.questionText.length ≤ 1000) then throw .validation
  let points ← match q.points with
    | none => pure none
    | some p => if 1 ≤ p then pure (some p) else throw Err.validation
  if !(q.choices.length ≥ 2 && q.choices.length ≤ 4) then throw .validation
  let choices ← q.choices.mapM parseChoice
  if !(choices.any (fun c => c.isCorrect)) then throw .validation
  pure ⟨jsTrim q.questionText, points, choices⟩

/-- The `z.preprocess` step of the optional `description`/`instructions`
fields: `null`/`undefined`/`''` become `undefined`, strings are trimmed. -/
def preprocessOpt (v : Option String) : Option String :=
  match v with
  | none => none
  | some s => if s == "" then none else some (jsTrim s)

/-- Optional text field: preprocessed, then bounded. -/
def parseOptText (v : Option String) (maxLen : Nat) : Except Err (Option String) :=
  match preprocessOpt v with
  | none => .ok none
  | some s => if s.length ≤ maxLen then .ok (some s) else .error .validation

/-- Required `title` field: a string (a `null` FormData value is rejected by
`z.string()`), length 1..200, then trimmed. -/
def parseTitle (v : Option String) : Except Err String :=
  match v with
  | none => .error .validation
  | some s => if s.length ≥ 1 && s.length ≤ 200 then .ok (jsTrim s) else .error .validation

/-- Payload accepted by `CreateQuizSchema`. -/
structure CreateData where
  title : String
  description : Option String
  instructions : Option String
  questions : List QuestionInput
deriving DecidableEq, Repr

/-- Payload accepted by `UpdateQuizSchema` (`questions` optional). -/
structure UpdateData where
  title : String
  description : Option String
  instructions : Option String
  questions : Option (List QuestionInput)
deriving DecidableEq, Repr

/-- `CreateQuizSchema.parse`. -/
def parseCreateQuiz (title description instructions : Option String)
    (questions : List RawQuestion) : Except Err CreateData := do
  let t ← parseTitle title
  let d ← parseOptText description 1000
  let i ← parseOptText instructions 500
  if questions.length < 1 then throw .validation
  let qs ← questions.mapM parseQuestion
  pure ⟨t, d, i, qs⟩

/-- `UpdateQuizSchema.parse`. -/
def parseUpdateQuiz (title description instructions : Option String)
    (questions : Option (List RawQuestion)) : Except Err UpdateData := do
  let t ← parseTitle title
  let d ← parseOptText description 1000
  let i ← parseOptText instructions 500
  match questions with
  | none => pure ⟨t, d, i, none⟩
  | some qs0 => do
      if qs0.length < 1 then throw .validation
      let qs ← qs0.mapM parseQuestion
      pure ⟨t, d, i, some qs⟩

end QuizSchema

namespace QuizActions

open QuizApp QuizSchema

/-- The `validatedData.questions.map((q, index) => ...)` step of the quiz
actions: question-batch records with 1-based `questionOrder` and
`points: q.points || 1`. -/
def buildQuestionItems (quizId : String) :
    List QuestionInput → Int → List QuestionService.QuestionToCreate
  | [], _ => []
  | q :: rest, idx =>
      ⟨quizId, q.questionText, idx, some (jsOrInt q.points 1)⟩ ::
        buildQuestionItems quizId rest (idx + 1)

/-- The inner `questionData.choices.forEach((choice, choiceIndex) => ...)`
step: choice-batch records with 1-based `choiceOrder` for one question. -/
def buildChoicesFor (questionId : String) :
    List ChoiceInput → Int → List ChoiceService.ChoiceToCreate
  | [], _ => []
  | c :: rest, idx =>
      ⟨questionId, c.choiceText, idx, c.isCorrect⟩ :: buildChoicesFor questionId rest (idx + 1)

/-- The outer `validatedData.questions.forEach((questionData, questionIndex)
=> ...)` step: all choice-batch records, pairing each question with the id
created for it (`createdQuestionIds[questionIndex]`; the two lists have equal
length by construction of `createQuestionsBatch`). -/
def buildChoiceItems :
    List QuestionInput → List String → List ChoiceService.ChoiceToCreate
  | [], _ => []
  | _ :: _, [] => []
  | q :: qrest, qid :: idrest => buildChoicesFor qid q.choices 1 ++ buildChoiceItems qrest idrest

/-- Raw form input of the `createQuiz` action (FormData fields plus the parsed
`questions` JSON, which defaults to `[]`). -/
structure RawCreateForm where
  title : Option String
  description : Option String
  instructions : Option String
  questions : List RawQuestion
deriving DecidableEq, Repr

/-- Raw form input of the `updateQuiz` action (`questions` only parsed when
the field is present). -/
structure RawUpdateForm where
  title : Option String
  description : Option String
  instructions : Option String
  questions : Option (List RawQuestion)
deriving DecidableEq, Repr

/-- `actions/quizzes.ts createQuiz`: authentication, `CreateQuizSchema`
validation, quiz-row insert, question batch, choice batch, final re-read.
The three storage steps are three separate atomic statements — there is no
transaction spanning them. -/
def createQuiz (s : St) (user : Option String) (raw : RawCreateForm) (now : Int) :
    St × Except Err QuizRow :=
  match user with
  | none => (s, .error .authRequired)
  | some uid =>
      match parseCreateQuiz raw.title raw.description raw.instructions raw.questions with
      | .error e => (s, .error e)
      | .ok v =>
          let r1 := QuizService.createQuiz s v.title v.description v.instructions uid now
          match r1.2 with
          | .error e => (r1.1, .error e)
          | .ok quiz =>
              let r2 := QuestionService.createQuestionsBatch r1.1
                (buildQuestionItems quiz.id v.questions 1) now
              match r2.2 with
              | .error e => (r2.1, .error e)
              | .ok qids =>
                  let r3 := ChoiceService.createChoicesBatch r2.1
                    (buildChoiceItems v.questions qids) now
                  match r3.2 with
                  | .error e => (r3.1, .error e)
                  | .ok _ =>
                      match QuizService.getQuizById r3.1.db quiz.id with
                      | none => (r3.1, .error .failedRetrieveQuiz)
                      | some q => (r3.1, .ok q)

/-- The `for (const question of existingQuestions)` deletion loop of the
`updateQuiz` action: one DELETE statement per existing question. -/
def deleteQuestionsLoop : St → List QuestionRow → St × Except Err Unit
  | s, [] => (s, .ok ())
  | s, q :: rest =>
      let r := QuestionService.deleteQuestion s q.id
      match r.2 with
      | .error e => (r.1, .error e)
      | .ok _ => deleteQuestionsLoop r.1 rest

/-- The final `getQuizById` re-read shared by the tail of the `updateQuiz`
action. -/
def finalFetch (s : St) (quizId : String) : St × Except Err QuizRow :=
  match QuizService.getQuizById s.db quizId with
  | none => (s, .error .failedRetrieveQuiz)
  | some q => (s, .ok q)

/-- The question-replacement block of the `updateQuiz` action (run when
`validatedData.questions` is present): delete every existing question of the
quiz (one DELETE each, cascading), then batch-insert the new questions and
their choices, then re-read the quiz. -/
def replaceQuestions (s : St) (quizId : String) (qs : List QuizSchema.QuestionInput)
    (now : Int) : St × Except Err QuizRow :=
  let existing := QuestionService.getQuestionsByQuiz s.db quizId
  let rdel := deleteQuestionsLoop s existing
  match rdel.2 with
  | .error e => (rdel.1, .error e)
  | .ok _ =>
      let r2 := QuestionService.createQuestionsBatch rdel.1
        (buildQuestionItems quizId qs 1) now
      match r2.2 with
      | .error e => (r2.1, .error e)
      | .ok qids =>
          let r3 := ChoiceService.createChoicesBatch r2.1 (buildChoiceItems qs qids) now
          match r3.2 with
          | .error e => (r3.1, .error e)
          | .ok _ => finalFetch r3.1 quizId

/-- `actions/quizzes.ts updateQuiz`: authentication, ownership check (before
any write), `UpdateQuizSchema` validation, metadata update when
`validatedData.title || validatedData.description !== undefined ||
validatedData.instructions !== undefined`, then — when `questions` is present
— deletion of every existing question followed by fresh question and choice
batches. -/
def updateQuiz (s : St) (user : Option String) (quizId : String) (raw : RawUpdateForm)
    (now : Int) : St × Except Err QuizRow :=
  match user with
  | none => (s, .error .authRequired)
  | some uid =>
      if !(QuizService.isQuizOwner s.db quizId uid) then (s, .error .notOwner)
      else
        match parseUpdateQuiz raw.title raw.description raw.instructions raw.questions with
        | .error e => (s, .error e)
        | .ok v =>
            let meta : St × Except Err Unit :=
              if !(v.title == "") || v.description.isSome || v.instructions.isSome then
                let r := QuizService.updateQuiz s quizId (some v.title) v.description
                  v.instructions now
                (r.1, match r.2 with | .error e => .error e | .ok _ => .ok ())
              else (s, .ok ())
            match meta.2 with
            | .error e => (meta.1, .error e)
            | .ok _ =>
                match v.questions with
                | none => finalFetch meta.1 quizId
                | some qs => replaceQuestions meta.1 quizId qs now

/-- `actions/quizzes.ts deleteQuiz`: authentication, ownership check (before
any write), then the soft delete. -/
def deleteQuiz (s : St) (user : Option String) (quizId : String) (now : Int) :
    St × Except Err Unit :=
  match user with
  | none => (s, .error .authRequired)
  | some uid =>
      if !(QuizService.isQuizOwner s.db quizId uid) then (s, .error .notOwner)
      else QuizService.deleteQuiz s quizId now

end QuizActions

namespace Ex

open QuizApp

/-- Example quiz owned by user `u1`. -/
def quizZ1 : QuizRow := ⟨"z1", "T", none, none, "u1", 10, 10, 1⟩

/-- Example question of `z1`, worth 2 points. -/
def questionQ1 : QuestionRow := ⟨"q1", "z1", "Q one", 1, 2, 10, 10⟩

/-- Correct choice of `q1`. -/
def choiceC1 : ChoiceRow := ⟨"c1", "q1", "A", 1, 1, 10, 10⟩

/-- Incorrect choice of `q1`. -/
def choiceC2 : ChoiceRow := ⟨"c2", "q1", "B", 2, 0, 10, 10⟩

/-- An in-progress attempt on `z1` by user `u2`. -/
def attemptOpen : AttemptRow := ⟨"a1", "u2", "z1", 0, 2, 0, 100, none, none⟩

/-- An already-submitted attempt on `z1` by user `u2`. -/
def attemptDone : AttemptRow := ⟨"a2", "u2", "z1", 2, 2, 100, 100, some 150, some 50⟩

/-- Example database shared by the concrete runs below. -/
def dbMain : DB := ⟨[quizZ1], [questionQ1], [choiceC1, choiceC2], [attemptOpen, attemptDone], []⟩

end Ex

open QuizApp

deriving instance DecidableEq for Except

/-- Scoring result of the first racing submission of the C2 counterexample
(answers `c1`, correct). -/
def raceScoreA : AttemptService.ScoringResult := ⟨2, 2, 100, [⟨"q1", true, 2, some "c1", some "c1"⟩]⟩

/-- Scoring result of the second racing submission of the C2 counterexample
(answers `c2`, incorrect). -/
def raceScoreB : AttemptService.ScoringResult := ⟨0, 2, 0, [⟨"q1", false, 0, some "c2", some "c1"⟩]⟩

/-- Write phase of the first racing submission, run from the shared initial
database. -/
def raceW1 : St × Except Err (AttemptRow × AttemptService.ScoringResult) :=
  AttemptService.submitAttemptWrite ⟨Ex.dbMain, 0, []⟩ "a1" Ex.attemptOpen raceScoreA 160

/-- Write phase of the second racing submission, run after the first one
committed (its read phase, like the first one's, saw the initial database). -/
def raceW2 : St × Except Err (AttemptRow × AttemptService.ScoringResult) :=
  AttemptService.submitAttemptWrite raceW1.1 "a1" Ex.attemptOpen raceScoreB 170

namespace Ex

open QuizApp

/-- Stored response of attempt `a2` whose question `q1` still exists. -/
def respKept : ResponseRow := ⟨"r1", "a2", "q1", some "c1", 1, 2⟩

/-- Stored response of attempt `a2` whose question id `qgone` no longer
resolves (its question was replaced after submission). -/
def respDangling : ResponseRow := ⟨"r2", "a2", "qgone", some "cx", 0, 0⟩

/-- Database in which attempt `a2` has one resolvable and one unresolvable
stored response. -/
def dbDangling : DB :=
  ⟨[quizZ1], [questionQ1], [choiceC1, choiceC2], [attemptDone], [respKept, respDangling]⟩

end Ex

namespace Ex

open QuizApp

/-- A second quiz whose only question has no choices. -/
def quizZ2 : QuizRow := ⟨"z2", "T2", none, none, "u1", 11, 11, 1⟩

/-- The choice-less question of `z2`. -/
def questionNoChoice : QuestionRow := ⟨"q2", "z2", "Q two", 1, 1, 10, 10⟩

/-- Database with an unscoreable quiz (its only question has zero choices). -/
def dbNoChoice : DB := ⟨[quizZ2], [questionNoChoice], [], [], []⟩

end Ex

/-- Raw create-quiz form of the C5 counterexample (one valid question with
two choices). -/
def c5raw : QuizActions.RawCreateForm :=
  ⟨some "New", none, none, [⟨"NQ", none, [⟨"x", true⟩, ⟨"y", false⟩]⟩]⟩

/-- C5 counterexample run: the quiz-row insert and the question batch succeed,
the choice batch fails. -/
def c5run : St × Except Err QuizRow :=
  QuizActions.createQuiz ⟨Ex.dbMain, 20, [true, true, false]⟩ (some "u1") c5raw 300

namespace AttemptService

open QuizApp

/-- The last `choiceId` submitted for a question: the first match in the
reversed response list. -/
def lastChoice (rs : List Submitted) (k : String) : Option String :=
  (rs.reverse.find? (fun r => r.questionId == k)).map (fun r => r.choiceId)

end AttemptService

/-- Response list of the C9 witness: two entries for `q1`, wrong then right. -/
def dupRs : List AttemptService.Submitted := [⟨"q1", "c2"⟩, ⟨"q1", "c1"⟩]

/-- Scoring result of the C9 witness: the last entry (`c1`, correct) is the
one scored. -/
def dupScore : AttemptService.ScoringResult :=
  ⟨2, 2, 100, [⟨"q1", true, 2, some "c1", some "c1"⟩]⟩

/-- The ids of the quiz's current questions (what the `updateQuiz` deletion
loop iterates over). -/
def oldQuestionIds (db : DB) (quizId : String) : List String :=
  (QuestionService.getQuestionsByQuiz db quizId).map (fun q => q.id)

/-- C7 counterexample input: update of quiz `z1` replacing its questions with
one fresh question of two choices. -/
def c7raw : QuizActions.RawUpdateForm :=
  ⟨some "T2", none, none, some [⟨"NQ", none, [⟨"x", true⟩, ⟨"y", false⟩]⟩]⟩

/-- The parsed form of `c7raw`. -/
def c7v : QuizSchema.UpdateData :=
  ⟨"T2", none, none, some [⟨"NQ", none, [⟨"x", true⟩, ⟨"y", false⟩]⟩]⟩

/-- C7 counterexample run: owner `u1` replaces the questions of `z1` over the
database that holds the submitted attempt `a2` and its stored responses. -/
def c7run : St × Except Err QuizRow :=
  QuizActions.updateQuiz ⟨Ex.dbDangling, 50, []⟩ (some "u1") "z1" c7raw 400

theorem mem_sortInsert (le : α → α → Bool) (x : α) (l : List α) (a : α) :
    a ∈ sortInsert le x l ↔ a = x ∨ a ∈ l := by
  induction l with
  | nil => simp [sortInsert]
  | cons y ys ih =>
      simp only [sortInsert]
      split <;> (simp only [List.mem_cons, ih]; try tauto)

theorem mem_sortBy (le : α → α → Bool) (l : List α) (a : α) :
    a ∈ sortBy le l ↔ a ∈ l := by
  induction l with
  | nil => simp [sortBy]
  | cons x xs ih => simp [sortBy, mem_sortInsert, ih]

/-- C1: calling `submit()` on an attempt whose `submittedAt` is already
non-null fails with the distinct already-submitted (Conflict) error before any
write: the returned state is exactly the input state, so the attempt's
`score`, `percentage`, `submittedAt` and all stored `attempt_responses` rows
are unchanged — a second sequential submission never re-scores. -/
theorem submit_on_submitted_attempt_rejected_before_write
    (s : St) (attemptId : String) (responses : List AttemptService.Submitted) (now : Int)
    (a : AttemptRow)
    (hget : AttemptService.getAttemptById s.db attemptId = some a)
    (hsub : a.submitted_at.isSome = true) :
    AttemptService.submitAttempt s attemptId responses now = (s, .error .alreadySubmitted) := by
  unfold AttemptService.submitAttempt AttemptService.submitAttemptRead
  rw [hget]
  simp [hsub]

/-- Witness for C1 at a concrete state: the attempt `a2` of the example
database is already submitted, and a new `submit()` call on it returns the
already-submitted error with the state untouched. -/
theorem submit_on_submitted_attempt_rejected_before_write_witness :
    AttemptService.getAttemptById Ex.dbMain "a2" = some Ex.attemptDone ∧
    Ex.attemptDone.submitted_at.isSome = true ∧
    AttemptService.submitAttempt ⟨Ex.dbMain, 0, []⟩ "a2" [⟨"q1", "c1"⟩] 777 =
      (⟨Ex.dbMain, 0, []⟩, .error .alreadySubmitted) :=
  ⟨by decide, by decide,
    submit_on_submitted_attempt_rejected_before_write ⟨Ex.dbMain, 0, []⟩ "a2" [⟨"q1", "c1"⟩] 777
      Ex.attemptDone (by decide) (by decide)⟩

unseal Rat.mul Rat.inv in
/-- C2 counterexample: the finalize step of `submit()` is NOT guarded by the
stored state.  Two racing submissions both read the attempt `a1` with
`submittedAt = null` from the same initial database; both write phases then
succeed, and the second finalize UPDATE rewrites the row even though its
`submitted_at` was already `some 160` at that point — both racers finalize and
the second silently re-scores (score 2 → 0), refuting the claimed
`submitted_at IS NULL` guard and zero-rows-affected check. -/
theorem finalize_not_guarded_counterexample :
    AttemptService.submitAttemptRead Ex.dbMain "a1" [⟨"q1", "c1"⟩] =
      .ok (Ex.attemptOpen, raceScoreA) ∧
    AttemptService.submitAttemptRead Ex.dbMain "a1" [⟨"q1", "c2"⟩] =
      .ok (Ex.attemptOpen, raceScoreB) ∧
    raceW1.2.isOk = true ∧
    AttemptService.getAttemptById raceW1.1.db "a1" =
      some { Ex.attemptOpen with
        score := 2
        percentage := 100
        submitted_at := some 160
        time_taken_seconds := some 60 } ∧
    raceW2.2.isOk = true ∧
    AttemptService.getAttemptById raceW2.1.db "a1" =
      some { Ex.attemptOpen with
        score := 0
        percentage := 0
        submitted_at := some 170
        time_taken_seconds := some 70 } := by
  refine ⟨by decide, by decide, by decide, by decide, by decide, by decide⟩

/-- C2 amended: the finalize UPDATE of `submit()` matches on the attempt id
alone; it rewrites the row with the new score/percentage/submittedAt even when
the row's `submitted_at` is already non-null (there is no `submitted_at IS
NULL` condition and the affected-row count is never inspected), so of two
racing submissions that both observed `submittedAt = null`, both finalize. -/
theorem finalize_update_rewrites_submitted_row
    (db : DB) (attemptId : String) (a : AttemptRow) (sc : Int) (pc : Rat) (now : Int)
    (tt : Option Int)
    (hmem : a ∈ db.attempts) (hid : a.id = attemptId)
    (_hsub : a.submitted_at.isSome = true) :
    { a with
      score := sc
      percentage := pc
      submitted_at := some now
      time_taken_seconds := tt } ∈
      (AttemptService.finalizeAttemptUpdate db attemptId sc pc now tt).attempts := by
  unfold AttemptService.finalizeAttemptUpdate
  refine List.mem_map.2 ⟨a, hmem, ?_⟩
  simp [hid]

/-- Witness for the amended C2 theorem: the finalize UPDATE applied to the
already-submitted attempt `a2` of the example database rewrites that row. -/
theorem finalize_update_rewrites_submitted_row_witness :
    Ex.attemptDone ∈ Ex.dbMain.attempts ∧
    Ex.attemptDone.submitted_at.isSome = true ∧
    { Ex.attemptDone with
      score := 9
      percentage := (50 : Rat)
      submitted_at := some 900
      time_taken_seconds := some 1 } ∈
      (AttemptService.finalizeAttemptUpdate Ex.dbMain "a2" 9 50 900 (some 1)).attempts :=
  ⟨by decide, by decide,
    finalize_update_rewrites_submitted_row Ex.dbMain "a2" Ex.attemptDone 9 50 900 (some 1)
      (by decide) (by decide) (by decide)⟩

/-- C3: evaluating the Scoring Engine at a response whose selected choice id
matches none of the question's choices: `choices.find` yields `undefined`, the
guard `selectedChoice !== null` passes (in JavaScript `undefined !== null`),
and `selectedChoice.is_correct` raises a TypeError — the call throws instead
of marking the question incorrect. -/
theorem calculateScore_throws_on_unmatched_choice_id :
    AttemptService.calculateScore Ex.dbMain "z1" [("q1", "zz")] = .error .typeError := by
  decide

/-- Deactivating the rows matching an id leaves no active row with that id:
the soft-deleted quiz no longer passes the `is_active = 1` filter. -/
theorem filter_active_after_deactivate (l : List QuizRow) (quizId : String) (now : Int) :
    ((l.map (fun q => if q.id == quizId then { q with is_active := 0, updated_at := now }
        else q)).filter (fun q => q.id == quizId && q.is_active == 1)) = [] := by
  rw [List.filter_eq_nil_iff]
  intro x hx
  obtain ⟨q, _, rfl⟩ := List.mem_map.1 hx
  by_cases h : q.id == quizId
  · simp [h]
  · simp [h]

/-- The deactivation map preserves how many rows carry a given id. -/
theorem filter_id_length_after_deactivate (l : List QuizRow) (quizId : String) (now : Int) :
    ((l.map (fun q => if q.id == quizId then { q with is_active := 0, updated_at := now }
        else q)).filter (fun q => q.id == quizId)).length =
      (l.filter (fun q => q.id == quizId)).length := by
  rw [List.filter_map, List.length_map]
  congr 1
  apply List.filter_congr
  intro a _
  by_cases h : a.id == quizId
  · have ha : a.id = quizId := by simpa using h
    simp [ha]
  · have ha : ¬a.id = quizId := by simpa using h
    simp [ha]

/-- C8: `deleteQuiz` is a soft delete.  With a fault-free schedule the service
call performs exactly the one UPDATE: quiz rows matching the id get
`is_active = 0` and a refreshed `updated_at` while every other field, row and
table is untouched; afterwards `getQuizById` returns null and `listAll` omits
the quiz, yet the rows still exist in storage (same count, now inactive) and
attempts remain retrievable unchanged. -/
theorem deleteQuiz_soft_delete_frame (db : DB) (n : Nat) (quizId : String) (now : Int) :
    QuizService.deleteQuiz ⟨db, n, []⟩ quizId now =
      (⟨QuizService.applyDeleteQuiz db quizId now, n, []⟩, .ok ()) ∧
    (QuizService.applyDeleteQuiz db quizId now).quizzes =
      db.quizzes.map (fun q =>
        if q.id == quizId then { q with is_active := 0, updated_at := now } else q) ∧
    (QuizService.applyDeleteQuiz db quizId now).questions = db.questions ∧
    (QuizService.applyDeleteQuiz db quizId now).choices = db.choices ∧
    (QuizService.applyDeleteQuiz db quizId now).attempts = db.attempts ∧
    (QuizService.applyDeleteQuiz db quizId now).attemptResponses = db.attemptResponses ∧
    QuizService.getQuizById (QuizService.applyDeleteQuiz db quizId now) quizId = none ∧
    (∀ qc ∈ QuizService.getAllQuizzes (QuizService.applyDeleteQuiz db quizId now),
      qc.quiz.id ≠ quizId) ∧
    ((QuizService.applyDeleteQuiz db quizId now).quizzes.filter
        (fun q => q.id == quizId)).length =
      (db.quizzes.filter (fun q => q.id == quizId)).length ∧
    (∀ q ∈ (QuizService.applyDeleteQuiz db quizId now).quizzes,
      q.id = quizId → q.is_active = 0) ∧
    (∀ attemptId, AttemptService.getAttemptById
        (QuizService.applyDeleteQuiz db quizId now) attemptId =
      AttemptService.getAttemptById db attemptId) := by
  refine ⟨rfl, rfl, rfl, rfl, rfl, rfl, ?_, ?_, ?_, ?_, ?_⟩
  · unfold QuizService.getQuizById QuizService.applyDeleteQuiz
    rw [filter_active_after_deactivate]
    rfl
  · intro qc hmem
    unfold QuizService.getAllQuizzes at hmem
    rw [mem_sortBy] at hmem
    obtain ⟨q, hq, rfl⟩ := List.mem_map.1 hmem
    obtain ⟨hqmem, hqact⟩ := List.mem_filter.1 hq
    unfold QuizService.applyDeleteQuiz at hqmem
    obtain ⟨q0, _, rfl⟩ := List.mem_map.1 hqmem
    by_cases h : q0.id == quizId
    · rw [if_pos h] at hqact
      simp at hqact
    · rw [if_neg h] at hqact
      intro heq
      have hid : q0.id = quizId := by simpa [h] using heq
      simp [hid] at h
  · exact filter_id_length_after_deactivate db.quizzes quizId now
  · intro q hmem heq
    unfold QuizService.applyDeleteQuiz at hmem
    obtain ⟨q0, _, rfl⟩ := List.mem_map.1 hmem
    by_cases h : q0.id == quizId
    · simp [h]
    · rw [if_neg h] at heq ⊢
      exact absurd (by simp [heq]) h
  · intro attemptId
    rfl

/-- Witness for C8 at the example database: soft-deleting `z1` hides it from
`getQuizById` and `listAll` while the row is still stored inactive and attempt
`a2` stays retrievable. -/
theorem deleteQuiz_soft_delete_frame_witness :
    QuizService.getQuizById (QuizService.applyDeleteQuiz Ex.dbMain "z1" 99) "z1" = none ∧
    ((QuizService.applyDeleteQuiz Ex.dbMain "z1" 99).quizzes.filter
        (fun q => q.id == "z1")).length =
      (Ex.dbMain.quizzes.filter (fun q => q.id == "z1")).length ∧
    AttemptService.getAttemptById (QuizService.applyDeleteQuiz Ex.dbMain "z1" 99) "a2" =
      AttemptService.getAttemptById Ex.dbMain "a2" :=
  ⟨(deleteQuiz_soft_delete_frame Ex.dbMain 0 "z1" 99).2.2.2.2.2.2.1,
    (deleteQuiz_soft_delete_frame Ex.dbMain 0 "z1" 99).2.2.2.2.2.2.2.2.1,
    (deleteQuiz_soft_delete_frame Ex.dbMain 0 "z1" 99).2.2.2.2.2.2.2.2.2.2 "a2"⟩

/-- C6: `updateQuiz` and `deleteQuiz` actions check ownership before any
write: for a requester who is not the quiz's creator they return the
authorization error with the state exactly unchanged, and `isQuizOwner` is
false whenever the quiz is missing or inactive (its lookup goes through the
active-only `getQuizById`). -/
theorem quiz_mutations_require_ownership (s : St) (uid quizId : String)
    (raw : QuizActions.RawUpdateForm) (now : Int) :
    (QuizService.isQuizOwner s.db quizId uid = false →
      QuizActions.updateQuiz s (some uid) quizId raw now = (s, .error .notOwner) ∧
      QuizActions.deleteQuiz s (some uid) quizId now = (s, .error .notOwner)) ∧
    (QuizService.getQuizById s.db quizId = none →
      QuizService.isQuizOwner s.db quizId uid = false) := by
  constructor
  · intro h
    constructor
    · unfold QuizActions.updateQuiz
      simp [h]
    · unfold QuizActions.deleteQuiz
      simp [h]
  · intro h
    unfold QuizService.isQuizOwner
    rw [h]

/-- Witness for C6: user `u2` is not the creator of `z1` (owned by `u1`), and
both mutating actions reject with the authorization error leaving the state
unchanged; on the missing quiz id `zz` the ownership check is false. -/
theorem quiz_mutations_require_ownership_witness :
    QuizService.isQuizOwner Ex.dbMain "z1" "u2" = false ∧
    QuizActions.updateQuiz ⟨Ex.dbMain, 0, []⟩ (some "u2") "z1" ⟨some "X", none, none, none⟩ 5 =
      (⟨Ex.dbMain, 0, []⟩, .error .notOwner) ∧
    QuizActions.deleteQuiz ⟨Ex.dbMain, 0, []⟩ (some "u2") "z1" 5 =
      (⟨Ex.dbMain, 0, []⟩, .error .notOwner) ∧
    QuizService.getQuizById Ex.dbMain "zz" = none ∧
    QuizService.isQuizOwner Ex.dbMain "zz" "u2" = false :=
  ⟨by decide,
    ((quiz_mutations_require_ownership ⟨Ex.dbMain, 0, []⟩ "u2" "z1"
      ⟨some "X", none, none, none⟩ 5).1 (by decide)).1,
    ((quiz_mutations_require_ownership ⟨Ex.dbMain, 0, []⟩ "u2" "z1"
      ⟨some "X", none, none, none⟩ 5).1 (by decide)).2,
    by decide,
    (quiz_mutations_require_ownership ⟨Ex.dbMain, 0, []⟩ "u2" "zz"
      ⟨some "X", none, none, none⟩ 5).2 (by decide)⟩


/-- The results loop of `getAttemptResults` keeps exactly the responses whose
question still resolves, in order, rebuilding each record. -/
theorem resultsLoop_filter_map (db : DB) (rows : List ResponseRow) :
    AttemptService.resultsLoop db rows =
      (rows.filter (fun r => (QuestionService.getQuestionById db r.question_id).isSome)).map
        (AttemptService.rebuildResult db) := by
  induction rows with
  | nil => rfl
  | cons r rest ih =>
      unfold AttemptService.resultsLoop
      cases h : QuestionService.getQuestionById db r.question_id <;>
        simp [h, ih, List.filter_cons]

/-- C10: `getAttemptResults` returns every stored `attempt_responses` row of
the attempt, but its `questionResults` list is the stored rows filtered to
those whose `question_id` still resolves to an existing question — a response
whose question was deleted (for example by a post-submission quiz edit) is
silently omitted, so the two lists can have different lengths. -/
theorem getAttemptResults_skips_unresolvable_questions
    (db : DB) (attemptId : String) (a : AttemptRow)
    (hget : AttemptService.getAttemptById db attemptId = some a) :
    AttemptService.getAttemptResults db attemptId =
      .ok (a, AttemptService.getAttemptResponses db attemptId,
        ((AttemptService.getAttemptResponses db attemptId).filter
          (fun r => (QuestionService.getQuestionById db r.question_id).isSome)).map
          (AttemptService.rebuildResult db)) := by
  simp only [AttemptService.getAttemptResults, hget, resultsLoop_filter_map]

/-- Witness for C10: on the example database with one dangling response,
`getAttemptResults` returns both stored rows but only one rebuilt question
result — the lists have lengths 2 and 1. -/
theorem getAttemptResults_skips_unresolvable_questions_witness :
    AttemptService.getAttemptById Ex.dbDangling "a2" = some Ex.attemptDone ∧
    AttemptService.getAttemptResults Ex.dbDangling "a2" =
      .ok (Ex.attemptDone, [Ex.respKept, Ex.respDangling],
        [AttemptService.rebuildResult Ex.dbDangling Ex.respKept]) ∧
    [Ex.respKept, Ex.respDangling].length = 2 ∧
    [AttemptService.rebuildResult Ex.dbDangling Ex.respKept].length = 1 :=
  ⟨by decide,
    by
      rw [getAttemptResults_skips_unresolvable_questions Ex.dbDangling "a2" Ex.attemptDone
        (by decide)]
      decide,
    rfl, rfl⟩

/-- C4: `startAttempt` validates before writing: a quiz with no questions, or
with any question that has no choices, is rejected with the corresponding
error and the database is unchanged (only the id counter advanced — the id was
generated before validation, but no row was written); otherwise exactly one
attempt row is appended, with `score = 0`, `percentage = 0`,
`submitted_at = NULL`, `started_at = now` and `total_points` the sum of the
quiz's question points, and that row is returned. -/
theorem startAttempt_validates_then_creates (s : St) (userId quizId : String) (now : Int) :
    (QuestionService.getQuestionsByQuiz s.db quizId = [] →
      AttemptService.startAttempt s userId quizId now =
        ({ s with nextId := s.nextId + 1 }, .error .noQuestions)) ∧
    (∀ q ∈ QuestionService.getQuestionsByQuiz s.db quizId,
      ChoiceService.getChoicesByQuestion s.db q.id = [] →
      AttemptService.startAttempt s userId quizId now =
        ({ s with nextId := s.nextId + 1 }, .error .questionNoChoices)) ∧
    (s.faults = [] →
      (∀ a ∈ s.db.attempts, a.id ≠ genId s.nextId) →
      QuestionService.getQuestionsByQuiz s.db quizId ≠ [] →
      (∀ q ∈ QuestionService.getQuestionsByQuiz s.db quizId,
        ChoiceService.getChoicesByQuestion s.db q.id ≠ []) →
      AttemptService.startAttempt s userId quizId now =
        ({ s with
            db := { s.db with attempts := s.db.attempts ++
              [⟨genId s.nextId, userId, quizId, 0,
                (QuestionService.getQuestionsByQuiz s.db quizId).foldl
                  (fun acc q => acc + q.points) 0, 0, now, none, none⟩] }
            nextId := s.nextId + 1 },
          .ok ⟨genId s.nextId, userId, quizId, 0,
            (QuestionService.getQuestionsByQuiz s.db quizId).foldl
              (fun acc q => acc + q.points) 0, 0, now, none, none⟩)) := by
  refine ⟨?_, ?_, ?_⟩
  · intro h
    unfold AttemptService.startAttempt
    simp [h]
  · intro q hq hch
    unfold AttemptService.startAttempt
    have hne : QuestionService.getQuestionsByQuiz s.db quizId ≠ [] := List.ne_nil_of_mem hq
    have hisEmpty : (QuestionService.getQuestionsByQuiz s.db quizId).isEmpty = false := by
      simpa using hne
    cases hfind : (QuestionService.getQuestionsByQuiz s.db quizId).find?
        (fun q2 => (ChoiceService.getChoicesByQuestion s.db q2.id).isEmpty) with
    | none =>
        exfalso
        have hnone := List.find?_eq_none.1 hfind q hq
        simp [hch] at hnone
    | some x =>
        simp [hisEmpty, hfind]
  · intro hfaults hfresh hne hch
    unfold AttemptService.startAttempt
    have hisEmpty : (QuestionService.getQuestionsByQuiz s.db quizId).isEmpty = false := by
      simpa using hne
    have hfind : (QuestionService.getQuestionsByQuiz s.db quizId).find?
        (fun q2 => (ChoiceService.getChoicesByQuestion s.db q2.id).isEmpty) = none :=
      List.find?_eq_none.2 (fun q hq => by simp [hch q hq])
    have hfilter : s.db.attempts.filter (fun a => a.id == genId s.nextId) = [] :=
      List.filter_eq_nil_iff.2 (fun a ha => by simp [hfresh a ha])
    simp only [hisEmpty, hfind, mutStep, hfaults]
    unfold AttemptService.getAttemptById
    simp only [List.filter_append, hfilter]
    simp


/-- Witness for C4: starting an attempt on `z1` appends exactly one fresh
attempt row (`score = 0`, `percentage = 0`, `submitted_at = NULL`,
`started_at = now`, `total_points = 2`), while starting one on the
unscoreable quiz `z2` is rejected with no row written. -/
theorem startAttempt_validates_then_creates_witness :
    (∀ a ∈ Ex.dbMain.attempts, a.id ≠ genId 0) ∧
    AttemptService.startAttempt ⟨Ex.dbMain, 0, []⟩ "u9" "z1" 500 =
      (⟨{ Ex.dbMain with attempts := Ex.dbMain.attempts ++
          [⟨genId 0, "u9", "z1", 0, 2, 0, 500, none, none⟩] }, 1, []⟩,
        .ok ⟨genId 0, "u9", "z1", 0, 2, 0, 500, none, none⟩) ∧
    AttemptService.startAttempt ⟨Ex.dbNoChoice, 0, []⟩ "u9" "z2" 500 =
      (⟨Ex.dbNoChoice, 1, []⟩, .error .questionNoChoices) :=
  ⟨by decide,
    by
      have h := (startAttempt_validates_then_creates ⟨Ex.dbMain, 0, []⟩ "u9" "z1" 500).2.2
        rfl (by decide) (by decide) (by decide)
      rw [h]
      decide,
    by
      have h2 := (startAttempt_validates_then_creates ⟨Ex.dbNoChoice, 0, []⟩ "u9" "z2" 500).2.1
        Ex.questionNoChoice (by decide) (by decide)
      simpa using h2⟩

/-- Reading back a freshly appended active quiz row finds exactly that row. -/
theorem getQuizById_append_fresh (l : List QuizRow) (row : QuizRow) (g : String)
    (hfresh : ∀ q ∈ l, q.id ≠ g) (hid : row.id = g) (hact : row.is_active = 1) :
    ((l ++ [row]).filter (fun q => q.id == g && q.is_active == 1)).head? = some row := by
  rw [List.filter_append]
  have h1 : l.filter (fun q => q.id == g && q.is_active == 1) = [] :=
    List.filter_eq_nil_iff.2 (fun q hq => by simp [hfresh q hq])
  rw [h1]
  simp [hid, hact]

/-- `quiz.service.ts createQuiz` under a schedule whose current statement
succeeds: the row is inserted (fresh id) and returned. -/
theorem createQuizService_ok (s : St) (t : String) (d i : Option String) (uid : String)
    (now : Int) (rest : List Bool) (hfaults : s.faults = true :: rest)
    (hfresh : ∀ q ∈ s.db.quizzes, q.id ≠ genId s.nextId) :
    QuizService.createQuiz s t d i uid now =
      ({ s with
          db := { s.db with quizzes := s.db.quizzes ++
            [⟨genId s.nextId, t, jsOrNullStr d, jsOrNullStr i, uid, now, now, 1⟩] }
          nextId := s.nextId + 1
          faults := rest },
        .ok ⟨genId s.nextId, t, jsOrNullStr d, jsOrNullStr i, uid, now, now, 1⟩) := by
  unfold QuizService.createQuiz
  simp only [mutStep, hfaults, reduceIte]
  unfold QuizService.getQuizById
  rw [getQuizById_append_fresh s.db.quizzes _ (genId s.nextId) hfresh rfl rfl]

/-- `question.service.ts createQuestionsBatch` under a schedule whose current
statement succeeds. -/
theorem createQuestionsBatch_ok (s : St) (items : List QuestionService.QuestionToCreate)
    (now : Int) (rest : List Bool) (hfaults : s.faults = true :: rest) :
    QuestionService.createQuestionsBatch s items now =
      ({ s with
          db := { s.db with questions := s.db.questions ++
            QuestionService.buildQuestionRows s.nextId items now }
          nextId := s.nextId + items.length
          faults := rest },
        .ok (genIds s.nextId items.length)) := by
  unfold QuestionService.createQuestionsBatch
  simp only [mutStep, hfaults, reduceIte]

/-- `choice.service.ts createChoicesBatch` when its one batch statement fails:
storage error, database unchanged (only the ids were generated). -/
theorem createChoicesBatch_fails (s : St) (items : List ChoiceService.ChoiceToCreate)
    (now : Int) (rest : List Bool) (hfaults : s.faults = false :: rest) :
    ChoiceService.createChoicesBatch s items now =
      ({ s with nextId := s.nextId + items.length, faults := rest }, .error .storage) := by
  unfold ChoiceService.createChoicesBatch
  simp only [mutStep, hfaults]
  simp


/-- C5 counterexample: when `createQuiz` fails partway through (the choice
batch fails after the quiz row was inserted), the error is surfaced — but the
half-built quiz IS visible to readers: `getQuizById` returns it and `listAll`
includes it, because the quiz-row insert was already committed and no
transaction spans the three storage steps. -/
theorem createQuiz_partial_failure_visible_counterexample :
    c5run.2 = .error .storage ∧
    QuizService.getQuizById c5run.1.db "g20" =
      some ⟨"g20", "New", none, none, "u1", 300, 300, 1⟩ ∧
    "g20" ∈ (QuizService.getAllQuizzes c5run.1.db).map (fun qc => qc.quiz.id) :=
  ⟨by decide, by decide, by decide⟩

/-- C5 amended: if `createQuiz` fails partway through (here: the choice batch
fails after quiz row and question batch committed), the error is surfaced to
the caller, but the already-inserted quiz row remains active and visible —
`getQuizById` returns it and `listAll` includes it. -/
theorem createQuiz_partial_failure_surfaces_error_but_quiz_visible
    (db : DB) (n : Nat) (uid : String) (raw : QuizActions.RawCreateForm) (now : Int)
    (v : QuizSchema.CreateData)
    (hparse : QuizSchema.parseCreateQuiz raw.title raw.description raw.instructions
      raw.questions = .ok v)
    (hfresh : ∀ q ∈ db.quizzes, q.id ≠ genId n) :
    (QuizActions.createQuiz ⟨db, n, [true, true, false]⟩ (some uid) raw now).2 =
      .error .storage ∧
    QuizService.getQuizById
        (QuizActions.createQuiz ⟨db, n, [true, true, false]⟩ (some uid) raw now).1.db
        (genId n) =
      some ⟨genId n, v.title, jsOrNullStr v.description, jsOrNullStr v.instructions,
        uid, now, now, 1⟩ ∧
    genId n ∈
      (QuizService.getAllQuizzes
        (QuizActions.createQuiz ⟨db, n, [true, true, false]⟩ (some uid) raw now).1.db).map
        (fun qc => qc.quiz.id) := by
  have h1 := createQuizService_ok ⟨db, n, [true, true, false]⟩ v.title v.description
    v.instructions uid now [true, false] rfl hfresh
  have h2 := createQuestionsBatch_ok
    ⟨{ db with quizzes := db.quizzes ++
        [⟨genId n, v.title, jsOrNullStr v.description, jsOrNullStr v.instructions,
          uid, now, now, 1⟩] }, n + 1, [true, false]⟩
    (QuizActions.buildQuestionItems (genId n) v.questions 1) now [false] rfl
  have h3 := createChoicesBatch_fails
    ⟨{ db with
        quizzes := db.quizzes ++
          [⟨genId n, v.title, jsOrNullStr v.description, jsOrNullStr v.instructions,
            uid, now, now, 1⟩]
        questions := db.questions ++
          QuestionService.buildQuestionRows (n + 1)
            (QuizActions.buildQuestionItems (genId n) v.questions 1) now },
      n + 1 + (QuizActions.buildQuestionItems (genId n) v.questions 1).length, [false]⟩
    (QuizActions.buildChoiceItems v.questions
      (genIds (n + 1) (QuizActions.buildQuestionItems (genId n) v.questions 1).length))
    now [] rfl
  have hrun : QuizActions.createQuiz ⟨db, n, [true, true, false]⟩ (some uid) raw now =
      (⟨{ db with
            quizzes := db.quizzes ++
              [⟨genId n, v.title, jsOrNullStr v.description, jsOrNullStr v.instructions,
                uid, now, now, 1⟩]
            questions := db.questions ++
              QuestionService.buildQuestionRows (n + 1)
                (QuizActions.buildQuestionItems (genId n) v.questions 1) now },
          n + 1 + (QuizActions.buildQuestionItems (genId n) v.questions 1).length +
            (QuizActions.buildChoiceItems v.questions
              (genIds (n + 1)
                (QuizActions.buildQuestionItems (genId n) v.questions 1).length)).length,
          []⟩,
        .error .storage) := by
    unfold QuizActions.createQuiz
    rw [hparse]
    simp only [h1, h2, h3]
  refine ⟨by rw [hrun], ?_, ?_⟩
  · rw [hrun]
    unfold QuizService.getQuizById
    exact getQuizById_append_fresh db.quizzes _ (genId n) hfresh rfl rfl
  · rw [hrun]
    unfold QuizService.getAllQuizzes
    refine List.mem_map.2 ⟨_, (mem_sortBy _ _ _).2 (List.mem_map.2 ⟨⟨genId n, v.title,
      jsOrNullStr v.description, jsOrNullStr v.instructions, uid, now, now, 1⟩, ?_, rfl⟩), rfl⟩
    refine List.mem_filter.2 ⟨?_, by simp⟩
    simp

/-- Witness for the amended C5 theorem at the concrete counterexample input. -/
theorem createQuiz_partial_failure_surfaces_error_but_quiz_visible_witness :
    QuizSchema.parseCreateQuiz c5raw.title c5raw.description c5raw.instructions
      c5raw.questions = .ok ⟨"New", none, none, [⟨"NQ", none, [⟨"x", true⟩, ⟨"y", false⟩]⟩]⟩ ∧
    (QuizActions.createQuiz ⟨Ex.dbMain, 20, [true, true, false]⟩ (some "u1") c5raw 300).2 =
      .error .storage ∧
    genId 20 ∈
      (QuizService.getAllQuizzes
        (QuizActions.createQuiz ⟨Ex.dbMain, 20, [true, true, false]⟩
          (some "u1") c5raw 300).1.db).map (fun qc => qc.quiz.id) :=
  ⟨by decide,
    (createQuiz_partial_failure_surfaces_error_but_quiz_visible
      Ex.dbMain 20 "u1" c5raw 300
      ⟨"New", none, none, [⟨"NQ", none, [⟨"x", true⟩, ⟨"y", false⟩]⟩]⟩
      (by decide) (by decide)).1,
    (createQuiz_partial_failure_surfaces_error_but_quiz_visible
      Ex.dbMain 20 "u1" c5raw 300
      ⟨"New", none, none, [⟨"NQ", none, [⟨"x", true⟩, ⟨"y", false⟩]⟩]⟩
      (by decide) (by decide)).2.2⟩


/-- Replacing the entries keyed `k` does not change lookups of other keys. -/
theorem find?_map_replace (m : AttemptService.RMap) (k v k2 : String) (h2 : k2 ≠ k) :
    (m.map (fun p => if p.1 == k then (k, v) else p)).find? (fun p => p.1 == k2) =
      m.find? (fun p => p.1 == k2) := by
  induction m with
  | nil => rfl
  | cons p rest ih =>
      by_cases hp : p.1 = k
      · have hrepl : (if (p.1 == k) = true then (k, v) else p) = (k, v) := by simp [hp]
        have hf1 : ((k, v).1 == k2) = false := by simp [Ne.symm h2]
        have hf2 : (p.1 == k2) = false := by simp [hp, Ne.symm h2]
        simp only [List.map_cons, hrepl, List.find?, hf1, hf2, ih]
      · have hrepl : (if (p.1 == k) = true then (k, v) else p) = p := by simp [hp]
        simp only [List.map_cons, hrepl, List.find?]
        cases hc : (p.1 == k2) <;> simp only [hc, ih]

/-- Replacing the entries keyed `k`, when `k` occurs, makes the lookup of `k`
return the new entry. -/
theorem find?_map_replace_self (m : AttemptService.RMap) (k v : String)
    (hany : m.any (fun p => p.1 == k) = true) :
    (m.map (fun p => if p.1 == k then (k, v) else p)).find? (fun p => p.1 == k) =
      some (k, v) := by
  induction m with
  | nil => simp at hany
  | cons p rest ih =>
      by_cases hp : p.1 = k
      · have hrepl : (if (p.1 == k) = true then (k, v) else p) = (k, v) := by simp [hp]
        have hf1 : ((k, v).1 == k) = true := by simp
        simp only [List.map_cons, hrepl, List.find?, hf1]
      · have hrest : rest.any (fun p => p.1 == k) = true := by
          simpa [hp] using hany
        have hrepl : (if (p.1 == k) = true then (k, v) else p) = p := by simp [hp]
        have hf2 : (p.1 == k) = false := by simp [hp]
        simp only [List.map_cons, hrepl, List.find?, hf2, ih hrest]
        simp [hf2]

/-- JavaScript `Map.set` then `Map.get`: the set key reads back the new value,
all other keys are unaffected. -/
theorem mapGet_mapSet (m : AttemptService.RMap) (k v k2 : String) :
    AttemptService.mapGet (AttemptService.mapSet m k v) k2 =
      if k2 = k then some v else AttemptService.mapGet m k2 := by
  unfold AttemptService.mapSet AttemptService.mapGet
  by_cases hany : m.any (fun p => p.1 == k)
  · rw [if_pos hany]
    by_cases h2 : k2 = k
    · subst h2
      rw [find?_map_replace_self m _ v hany]
      simp
    · rw [find?_map_replace m k v k2 h2, if_neg h2]
  · rw [if_neg hany]
    rw [List.find?_append]
    by_cases h2 : k2 = k
    · subst h2
      have hnone : m.find? (fun p => p.1 == k2) = none := by
        refine List.find?_eq_none.2 (fun p hp hbeq => ?_)
        exact hany (List.any_eq_true.2 ⟨p, hp, hbeq⟩)
      rw [hnone]
      simp
    · have h1 : ([(k, v)].find? (fun p => p.1 == k2)) = none := by
        have hf1 : ((k, v).1 == k2) = false := by simp [Ne.symm h2]
        simp only [List.find?, hf1]
      rw [h1, if_neg h2]
      cases hm : m.find? (fun p => p.1 == k2) <;> simp

/-- Folding `Map.set` over the submitted responses: a later entry for the same
question overwrites an earlier one, so a lookup sees the last matching entry
(or the initial map when the question never occurs). -/
theorem mapGet_foldl (rs : List AttemptService.Submitted) (m : AttemptService.RMap)
    (k : String) :
    AttemptService.mapGet
        (rs.foldl (fun acc r => AttemptService.mapSet acc r.questionId r.choiceId) m) k =
      match rs.reverse.find? (fun r => r.questionId == k) with
      | some r => some r.choiceId
      | none => AttemptService.mapGet m k := by
  induction rs generalizing m with
  | nil => simp
  | cons r rest ih =>
      simp only [List.foldl_cons, List.reverse_cons, List.find?_append]
      rw [ih]
      cases hf : rest.reverse.find? (fun r2 => r2.questionId == k) with
      | some r2 => simp
      | none =>
          rw [mapGet_mapSet]
          by_cases h : r.questionId = k
          · have hone : ([r].find? (fun r2 => r2.questionId == k)) = some r := by
              have hc : (r.questionId == k) = true := by simp [h]
              simp [List.find?, hc]
            rw [hone]
            simp [h]
          · have hone : ([r].find? (fun r2 => r2.questionId == k)) = none := by
              have hc : (r.questionId == k) = false := by simp [h]
              simp [List.find?, hc]
            rw [hone, if_neg (fun heq => h heq.symm)]
            simp

/-- C9 core map fact: a lookup in the response map built by `submitAttempt`
returns the choice of the LAST entry for that question in list order. -/
theorem buildResponseMap_lastChoice (rs : List AttemptService.Submitted) (k : String) :
    AttemptService.mapGet (AttemptService.buildResponseMap rs) k =
      AttemptService.lastChoice rs k := by
  unfold AttemptService.buildResponseMap AttemptService.lastChoice
  rw [mapGet_foldl]
  cases hf : rs.reverse.find? (fun r => r.questionId == k) <;>
    simp [hf, AttemptService.mapGet]

/-- Shape of a successful scoring loop: one result per question in quiz
order, whose `questionId` is the question's id and whose `selectedChoiceId`
is the (empty-string-nulled) response-map lookup for that question. -/
theorem calcLoop_ok_shape (db : DB) (m : AttemptService.RMap) (qs : List QuestionRow)
    (sc tp : Int) (acc : List AttemptService.QuestionResult)
    (out : Int × Int × List AttemptService.QuestionResult)
    (h : AttemptService.calcLoop db m qs sc tp acc = .ok out) :
    ∃ l, out.2.2 = acc ++ l ∧ l.length = qs.length ∧
      ∀ i, i < qs.length →
        (l.getD i default).questionId = (qs.getD i default).id ∧
        (l.getD i default).selectedChoiceId =
          jsOrNullStr (AttemptService.mapGet m (qs.getD i default).id) := by
  induction qs generalizing sc tp acc with
  | nil =>
      unfold AttemptService.calcLoop at h
      injection h with h2
      subst h2
      exact ⟨[], by simp, rfl, fun i hi => absurd hi (by simp)⟩
  | cons q rest ih =>
      simp only [AttemptService.calcLoop] at h
      split at h
      · obtain ⟨l, hl, hlen, hidx⟩ := ih _ _ _ h
        refine ⟨⟨q.id, false, 0, jsOrNullStr (AttemptService.mapGet m q.id), none⟩ :: l,
          ?_, by simp [hlen], ?_⟩
        · rw [hl]
          simp
        · intro i hi
          cases i with
          | zero => simp
          | succ j =>
              have hj : j < rest.length := by simpa using hi
              simpa using hidx j hj
      · split at h
        · exact absurd h (by simp)
        · obtain ⟨l, hl, hlen, hidx⟩ := ih _ _ _ h
          refine ⟨⟨q.id, false, 0, jsOrNullStr (AttemptService.mapGet m q.id),
            AttemptService.firstCorrect (ChoiceService.getChoicesByQuestion db q.id)⟩ :: l,
            ?_, by simp [hlen], ?_⟩
          · rw [hl]
            simp
          · intro i hi
            cases i with
            | zero => simp
            | succ j =>
                have hj : j < rest.length := by simpa using hi
                simpa using hidx j hj
        · next c hvc =>
            obtain ⟨l, hl, hlen, hidx⟩ := ih _ _ _ h
            refine ⟨⟨q.id, c.is_correct == 1,
              if (c.is_correct == 1) then q.points else 0,
              jsOrNullStr (AttemptService.mapGet m q.id),
              AttemptService.firstCorrect (ChoiceService.getChoicesByQuestion db q.id)⟩ :: l,
              ?_, by simp [hlen], ?_⟩
            · rw [hl]
              simp
            · intro i hi
              cases i with
              | zero => simp
              | succ j =>
                  have hj : j < rest.length := by simpa using hi
                  simpa using hidx j hj

/-- The response batch writes one row per question result. -/
theorem buildResponseRows_length (n : Nat) (aid : String)
    (l : List AttemptService.QuestionResult) :
    (AttemptService.buildResponseRows n aid l).length = l.length := by
  induction l generalizing n with
  | nil => rfl
  | cons r rest ih => simp [AttemptService.buildResponseRows, ih]

/-- The i-th inserted response row carries the i-th question result's
question id and selected choice. -/
theorem buildResponseRows_getD (n : Nat) (aid : String)
    (l : List AttemptService.QuestionResult) (i : Nat) (hi : i < l.length) :
    ((AttemptService.buildResponseRows n aid l).getD i default).question_id =
      (l.getD i default).questionId ∧
    ((AttemptService.buildResponseRows n aid l).getD i default).choice_id =
      (l.getD i default).selectedChoiceId := by
  induction l generalizing n i with
  | nil => simp at hi
  | cons r rest ih =>
      cases i with
      | zero => simp [AttemptService.buildResponseRows]
      | succ j =>
          have hj : j < rest.length := by simpa using hi
          simpa [AttemptService.buildResponseRows] using ih (n + 1) j hj

/-- The finalize UPDATE rewrites the looked-up attempt row in place: reading
the attempt back after the update returns the row with the new score,
percentage, submittedAt and timeTaken. -/
theorem getAttemptById_finalize (db : DB) (aid : String) (sc : Int) (pc : Rat)
    (now : Int) (tt : Option Int) (a : AttemptRow)
    (hget : AttemptService.getAttemptById db aid = some a) :
    AttemptService.getAttemptById
        (AttemptService.finalizeAttemptUpdate db aid sc pc now tt) aid =
      some { a with
        score := sc
        percentage := pc
        submitted_at := some now
        time_taken_seconds := tt } := by
  have hpa : (a.id == aid) = true := by
    unfold AttemptService.getAttemptById at hget
    cases hl : db.attempts.filter (fun x => x.id == aid) with
    | nil => rw [hl] at hget; cases hget
    | cons b tl =>
        rw [hl] at hget
        have hb : b = a := by simpa using hget
        have hmemf : b ∈ db.attempts.filter (fun x => x.id == aid) := by
          rw [hl]; exact List.mem_cons_self b tl
        have := (List.mem_filter.1 hmemf).2
        rwa [hb] at this
  unfold AttemptService.getAttemptById at hget
  unfold AttemptService.getAttemptById AttemptService.finalizeAttemptUpdate
  rw [List.filter_map]
  have hcong : ∀ x ∈ db.attempts,
      ((fun y => y.id == aid) ∘ (fun y => if y.id == aid then
        { y with
          score := sc
          percentage := pc
          submitted_at := some now
          time_taken_seconds := tt } else y)) x = ((fun y => y.id == aid) x) := by
    intro x _
    simp only [Function.comp]
    by_cases hx : x.id = aid <;> simp [hx]
  rw [List.filter_congr hcong, List.head?_map, hget]
  have hpa2 : a.id = aid := by simpa using hpa
  simp [hpa2]

/-- C9: when `submit()` receives several entries for the same questionId, the
LAST entry in list order wins — the `forEach`/`Map.set` loop overwrites
earlier duplicates — and exactly one AttemptResponse row per quiz question is
written.  Precisely: under a successful run, the lookup used for scoring
equals `lastChoice` (the last entry for the question); the final database has
the old response rows plus exactly one inserted row per question result;
there is one question result per quiz question, positionally aligned; and
both the persisted row's `choice_id` and the scored `selectedChoiceId` of
question i are the (empty-string-nulled) last submitted choice for that
question. -/
theorem submitAttempt_last_duplicate_entry_wins (s : St) (attemptId : String)
    (rs : List AttemptService.Submitted) (now : Int) (a : AttemptRow)
    (r : AttemptService.ScoringResult)
    (hget : AttemptService.getAttemptById s.db attemptId = some a)
    (hnot : a.submitted_at = none)
    (hscore : AttemptService.calculateScore s.db a.quiz_id
      (AttemptService.buildResponseMap rs) = .ok r)
    (hfaults : s.faults = []) :
    (∀ k, AttemptService.mapGet (AttemptService.buildResponseMap rs) k =
      AttemptService.lastChoice rs k) ∧
    (AttemptService.submitAttempt s attemptId rs now).2 =
      .ok ({ a with
        score := r.score
        percentage := r.percentage
        submitted_at := some now
        time_taken_seconds :=
          if a.started_at == 0 then none else some (now - a.started_at) }, r) ∧
    (AttemptService.submitAttempt s attemptId rs now).1.db.attemptResponses =
      s.db.attemptResponses ++
        AttemptService.buildResponseRows s.nextId attemptId r.questionResults ∧
    r.questionResults.length =
      (QuestionService.getQuestionsByQuiz s.db a.quiz_id).length ∧
    (∀ i, i < (QuestionService.getQuestionsByQuiz s.db a.quiz_id).length →
      ((AttemptService.buildResponseRows s.nextId attemptId r.questionResults).getD i
          default).question_id =
        ((QuestionService.getQuestionsByQuiz s.db a.quiz_id).getD i default).id ∧
      ((AttemptService.buildResponseRows s.nextId attemptId r.questionResults).getD i
          default).choice_id =
        jsOrNullStr (AttemptService.lastChoice rs
          ((QuestionService.getQuestionsByQuiz s.db a.quiz_id).getD i default).id) ∧
      (r.questionResults.getD i default).selectedChoiceId =
        jsOrNullStr (AttemptService.lastChoice rs
          ((QuestionService.getQuestionsByQuiz s.db a.quiz_id).getD i default).id)) := by
  have hread : AttemptService.submitAttemptRead s.db attemptId rs = .ok (a, r) := by
    unfold AttemptService.submitAttemptRead
    rw [hget]
    simp [hnot, hscore]
  have hget2 : AttemptService.getAttemptById
      { s.db with attemptResponses := s.db.attemptResponses ++
        AttemptService.buildResponseRows s.nextId attemptId r.questionResults } attemptId =
      some a := hget
  have heq : AttemptService.submitAttempt s attemptId rs now =
      ({ s with
          db := AttemptService.finalizeAttemptUpdate
            { s.db with attemptResponses := s.db.attemptResponses ++
              AttemptService.buildResponseRows s.nextId attemptId r.questionResults }
            attemptId r.score r.percentage now
            (if a.started_at == 0 then none else some (now - a.started_at))
          nextId := s.nextId + r.questionResults.length },
        .ok ({ a with
          score := r.score
          percentage := r.percentage
          submitted_at := some now
          time_taken_seconds :=
            if a.started_at == 0 then none else some (now - a.started_at) }, r)) := by
    unfold AttemptService.submitAttempt
    rw [hread]
    unfold AttemptService.submitAttemptWrite
    simp only [mutStep, hfaults]
    rw [getAttemptById_finalize _ _ _ _ _ _ a hget2]
  have hloop : ∃ sc tp, AttemptService.calcLoop s.db (AttemptService.buildResponseMap rs)
      (QuestionService.getQuestionsByQuiz s.db a.quiz_id) 0 0 [] =
      .ok (sc, tp, r.questionResults) := by
    unfold AttemptService.calculateScore at hscore
    cases hl : AttemptService.calcLoop s.db (AttemptService.buildResponseMap rs)
        (QuestionService.getQuestionsByQuiz s.db a.quiz_id) 0 0 [] with
    | error e => rw [hl] at hscore; cases hscore
    | ok out =>
        obtain ⟨sc, tp, results⟩ := out
        rw [hl] at hscore
        refine ⟨sc, tp, ?_⟩
        injection hscore with h3
        rw [← h3]
  obtain ⟨sc, tp, hloopEq⟩ := hloop
  obtain ⟨l, hl0, hlen, hidx⟩ := calcLoop_ok_shape _ _ _ _ _ _ _ hloopEq
  have hqr : r.questionResults = l := by simpa using hl0
  refine ⟨fun k => buildResponseMap_lastChoice rs k, by rw [heq], by rw [heq]; rfl, ?_, ?_⟩
  · rw [hqr, hlen]
  · intro i hi
    have hi2 : i < r.questionResults.length := by rw [hqr, hlen]; exact hi
    obtain ⟨hq, hsel⟩ := hidx i hi
    obtain ⟨hrow1, hrow2⟩ := buildResponseRows_getD s.nextId attemptId r.questionResults i hi2
    have hsel2 : (r.questionResults.getD i default).selectedChoiceId =
        jsOrNullStr (AttemptService.lastChoice rs
          ((QuestionService.getQuestionsByQuiz s.db a.quiz_id).getD i default).id) := by
      rw [hqr, hsel, buildResponseMap_lastChoice]
    refine ⟨?_, ?_, hsel2⟩
    · rw [hrow1, hqr, hq]
    · rw [hrow2, hsel2]


unseal Rat.mul Rat.inv in
/-- Witness for C9 at a concrete run: with duplicate entries for `q1` the
last one (`c1`) is scored, the attempt is finalized from it, and exactly one
response row is written for `q1`. -/
theorem submitAttempt_last_duplicate_entry_wins_witness :
    AttemptService.getAttemptById Ex.dbMain "a1" = some Ex.attemptOpen ∧
    Ex.attemptOpen.submitted_at = none ∧
    AttemptService.calculateScore Ex.dbMain "z1"
      (AttemptService.buildResponseMap dupRs) = .ok dupScore ∧
    AttemptService.lastChoice dupRs "q1" = some "c1" ∧
    (AttemptService.submitAttempt ⟨Ex.dbMain, 5, []⟩ "a1" dupRs 160).1.db.attemptResponses =
      Ex.dbMain.attemptResponses ++
        AttemptService.buildResponseRows 5 "a1" dupScore.questionResults ∧
    dupScore.questionResults.length =
      (QuestionService.getQuestionsByQuiz Ex.dbMain "z1").length :=
  ⟨by decide, by decide, by decide, by decide,
    (submitAttempt_last_duplicate_entry_wins ⟨Ex.dbMain, 5, []⟩ "a1" dupRs 160
      Ex.attemptOpen dupScore (by decide) (by decide) (by decide) rfl).2.2.1,
    (submitAttempt_last_duplicate_entry_wins ⟨Ex.dbMain, 5, []⟩ "a1" dupRs 160
      Ex.attemptOpen dupScore (by decide) (by decide) (by decide) rfl).2.2.2.1⟩

/-- With a fault-free schedule the deletion loop of `updateQuiz` applies the
cascading delete of each listed question in order. -/
theorem deleteQuestionsLoop_nilf (s : St) (qs : List QuestionRow) (hfaults : s.faults = []) :
    QuizActions.deleteQuestionsLoop s qs =
      ({ s with db := QuestionService.applyDeleteQuestions s.db (qs.map (fun q => q.id)) },
        .ok ()) := by
  induction qs generalizing s with
  | nil => simp [QuizActions.deleteQuestionsLoop, QuestionService.applyDeleteQuestions]
  | cons q rest ih =>
      unfold QuizActions.deleteQuestionsLoop QuestionService.deleteQuestion
      simp only [mutStep, hfaults]
      rw [ih _ rfl]
      rfl

/-- Deleting a list of questions removes exactly the question rows carrying a
listed id. -/
theorem applyDeleteQuestions_questions (db : DB) (ids : List String) :
    (QuestionService.applyDeleteQuestions db ids).questions =
      db.questions.filter (fun q => !(ids.contains q.id)) := by
  induction ids generalizing db with
  | nil => simp [QuestionService.applyDeleteQuestions]
  | cons k rest ih =>
      unfold QuestionService.applyDeleteQuestions
      rw [ih]
      unfold QuestionService.applyDeleteQuestion
      rw [List.filter_filter]
      apply List.filter_congr
      intro q _
      simp only [List.contains_cons, Bool.not_or]
      exact Bool.and_comm _ _

/-- Cascade: deleting a list of questions removes exactly the choice rows
whose question is listed. -/
theorem applyDeleteQuestions_choices (db : DB) (ids : List String) :
    (QuestionService.applyDeleteQuestions db ids).choices =
      db.choices.filter (fun c => !(ids.contains c.question_id)) := by
  induction ids generalizing db with
  | nil => simp [QuestionService.applyDeleteQuestions]
  | cons k rest ih =>
      unfold QuestionService.applyDeleteQuestions
      rw [ih]
      unfold QuestionService.applyDeleteQuestion
      rw [List.filter_filter]
      apply List.filter_congr
      intro c _
      simp only [List.contains_cons, Bool.not_or]
      exact Bool.and_comm _ _

/-- Deleting questions touches neither the quizzes nor the attempts table. -/
theorem applyDeleteQuestions_frame (db : DB) (ids : List String) :
    (QuestionService.applyDeleteQuestions db ids).quizzes = db.quizzes ∧
    (QuestionService.applyDeleteQuestions db ids).attempts = db.attempts := by
  induction ids generalizing db with
  | nil => exact ⟨rfl, rfl⟩
  | cons k rest ih => simpa [QuestionService.applyDeleteQuestions] using ih _

/-- Every response row surviving the cascading deletions has the question id
of some original row (the SET NULL rewrite only changes `choice_id`). -/
theorem applyDeleteQuestions_responses_provenance (db : DB) (ids : List String)
    (r : ResponseRow) (hmem : r ∈ (QuestionService.applyDeleteQuestions db ids).attemptResponses) :
    ∃ r0 ∈ db.attemptResponses, r.question_id = r0.question_id := by
  induction ids generalizing db r with
  | nil => exact ⟨r, hmem, rfl⟩
  | cons k rest ih =>
      obtain ⟨r0, hr0, heq⟩ := ih _ r hmem
      obtain ⟨r1, hr1, hmap⟩ := List.mem_map.1 hr0
      have hr1m := (List.mem_filter.1 hr1).1
      refine ⟨r1, hr1m, ?_⟩
      rw [heq, ← hmap]
      cases hc : r1.choice_id with
      | none => simp [hc]
      | some c =>
          simp only [hc]
          split <;> rfl

/-- Cascade: after the deletions, no response row references a deleted
question. -/
theorem applyDeleteQuestions_responses_deleted (db : DB) (ids : List String)
    (r : ResponseRow) (hmem : r ∈ (QuestionService.applyDeleteQuestions db ids).attemptResponses) :
    ids.contains r.question_id = false := by
  induction ids generalizing db r with
  | nil => rfl
  | cons k rest ih =>
      have hrest := ih _ r hmem
      obtain ⟨r0, hr0, heq⟩ := applyDeleteQuestions_responses_provenance _ rest r hmem
      obtain ⟨r1, hr1, hmap⟩ := List.mem_map.1 hr0
      have hfil := (List.mem_filter.1 hr1).2
      have hq : r.question_id ≠ k := by
        have hr1k : ¬(r1.question_id = k) := by
          intro hk
          have hneg : ¬(r1.question_id == k) = true := by simpa using hfil
          exact hneg (by simp [hk])
        rw [heq, ← hmap]
        cases hc : r1.choice_id with
        | none => simpa [hc] using hr1k
        | some c =>
            simp only [hc]
            split <;> simpa using hr1k
      have hnotmem : r.question_id ∉ rest := by simpa using hrest
      simp [List.contains_cons, hq, hnotmem]

/-- `createQuestionsBatch` under the fault-free schedule. -/
theorem createQuestionsBatch_nilf (s : St) (items : List QuestionService.QuestionToCreate)
    (now : Int) (hfaults : s.faults = []) :
    QuestionService.createQuestionsBatch s items now =
      ({ s with
          db := { s.db with questions := s.db.questions ++
            QuestionService.buildQuestionRows s.nextId items now }
          nextId := s.nextId + items.length },
        .ok (genIds s.nextId items.length)) := by
  unfold QuestionService.createQuestionsBatch
  simp only [mutStep, hfaults]

/-- `createChoicesBatch` under the fault-free schedule. -/
theorem createChoicesBatch_nilf (s : St) (items : List ChoiceService.ChoiceToCreate)
    (now : Int) (hfaults : s.faults = []) :
    ChoiceService.createChoicesBatch s items now =
      ({ s with
          db := { s.db with choices := s.db.choices ++
            ChoiceService.buildChoiceRows s.nextId items now }
          nextId := s.nextId + items.length },
        .ok (genIds s.nextId items.length)) := by
  unfold ChoiceService.createChoicesBatch
  simp only [mutStep, hfaults]

/-- The final re-read never changes the state. -/
theorem finalFetch_fst (s : St) (quizId : String) :
    (QuizActions.finalFetch s quizId).1 = s := by
  unfold QuizActions.finalFetch
  cases h : QuizService.getQuizById s.db quizId <;> simp [h]

/-- The ids of a freshly built question batch are the generated ids. -/
theorem buildQuestionRows_map_id (n : Nat) (items : List QuestionService.QuestionToCreate)
    (now : Int) :
    (QuestionService.buildQuestionRows n items now).map (fun q => q.id) =
      genIds n items.length := by
  induction items generalizing n with
  | nil => rfl
  | cons it rest ih => simp [QuestionService.buildQuestionRows, genIds, ih]

/-- The ids of a freshly built choice batch are the generated ids. -/
theorem buildChoiceRows_map_id (n : Nat) (items : List ChoiceService.ChoiceToCreate)
    (now : Int) :
    (ChoiceService.buildChoiceRows n items now).map (fun c => c.id) =
      genIds n items.length := by
  induction items generalizing n with
  | nil => rfl
  | cons it rest ih => simp [ChoiceService.buildChoiceRows, genIds, ih]

/-- The metadata UPDATE preserves each quiz row's id and active flag, so the
active-only lookup finds a quiz after the update exactly when it did before. -/
theorem getQuizById_applyUpdate (db : DB) (quizId : String)
    (t d i2 : Option String) (now : Int) (x : String) :
    QuizService.getQuizById (QuizService.applyUpdateQuiz db quizId t d i2 now) x =
      (QuizService.getQuizById db x).map
        (fun q => if q.id == quizId then QuizService.applyUpdateRow t d i2 now q else q) := by
  unfold QuizService.getQuizById QuizService.applyUpdateQuiz
  rw [List.filter_map]
  have hcong : ∀ q ∈ db.quizzes,
      ((fun y => y.id == x && y.is_active == 1) ∘
        (fun y => if y.id == quizId then QuizService.applyUpdateRow t d i2 now y else y)) q =
        ((fun y => y.id == x && y.is_active == 1) q) := by
    intro q _
    simp only [Function.comp]
    by_cases hx : q.id = quizId <;> simp [hx, QuizService.applyUpdateRow]
  rw [List.filter_congr hcong, List.head?_map]

/-- `quiz.service.ts updateQuiz` with a present title and fault-free storage:
the one UPDATE statement is applied and the (still active) quiz re-read
succeeds. -/
theorem updateQuizSvc_ok (s : St) (quizId : String) (t : String) (d i2 : Option String)
    (now : Int) (q0 : QuizRow) (hfaults : s.faults = [])
    (hq0 : QuizService.getQuizById s.db quizId = some q0) :
    QuizService.updateQuiz s quizId (some t) d i2 now =
      ({ s with db := QuizService.applyUpdateQuiz s.db quizId (some t) d i2 now },
        .ok (if q0.id == quizId then QuizService.applyUpdateRow (some t) d i2 now q0 else q0)) := by
  unfold QuizService.updateQuiz
  simp only [Option.isNone_some, Bool.false_and, Bool.if_false_left]
  simp only [mutStep, hfaults]
  rw [getQuizById_applyUpdate, hq0]
  rfl

/-- Full characterization of the question-replacement block under fault-free
storage: every existing question of the quiz is deleted (with its cascades),
then the new question and choice batches are appended with fresh ids. -/
theorem replaceQuestions_spec (s : St) (quizId : String)
    (qs : List QuizSchema.QuestionInput) (now : Int) (hfaults : s.faults = []) :
    (QuizActions.replaceQuestions s quizId qs now).1 =
      { s with
        db := { QuestionService.applyDeleteQuestions s.db
            ((QuestionService.getQuestionsByQuiz s.db quizId).map (fun q => q.id)) with
          questions := (QuestionService.applyDeleteQuestions s.db
            ((QuestionService.getQuestionsByQuiz s.db quizId).map (fun q => q.id))).questions ++
              QuestionService.buildQuestionRows s.nextId
                (QuizActions.buildQuestionItems quizId qs 1) now
          choices := (QuestionService.applyDeleteQuestions s.db
            ((QuestionService.getQuestionsByQuiz s.db quizId).map (fun q => q.id))).choices ++
              ChoiceService.buildChoiceRows
                (s.nextId + (QuizActions.buildQuestionItems quizId qs 1).length)
                (QuizActions.buildChoiceItems qs
                  (genIds s.nextId (QuizActions.buildQuestionItems quizId qs 1).length)) now }
        nextId := s.nextId + (QuizActions.buildQuestionItems quizId qs 1).length +
          (QuizActions.buildChoiceItems qs
            (genIds s.nextId (QuizActions.buildQuestionItems quizId qs 1).length)).length } := by
  have h1 := deleteQuestionsLoop_nilf s (QuestionService.getQuestionsByQuiz s.db quizId) hfaults
  have h2 := createQuestionsBatch_nilf
    ({ s with db := (QuestionService.applyDeleteQuestions s.db
      ((QuestionService.getQuestionsByQuiz s.db quizId).map (fun q => q.id))) })
    (QuizActions.buildQuestionItems quizId qs 1) now hfaults
  have h3 := createChoicesBatch_nilf
    ({ s with
        db := ({ (QuestionService.applyDeleteQuestions s.db
            ((QuestionService.getQuestionsByQuiz s.db quizId).map (fun q => q.id))) with
          questions := ((QuestionService.applyDeleteQuestions s.db
            ((QuestionService.getQuestionsByQuiz s.db quizId).map (fun q => q.id))).questions ++
              QuestionService.buildQuestionRows s.nextId
                (QuizActions.buildQuestionItems quizId qs 1) now) })
        nextId := s.nextId + (QuizActions.buildQuestionItems quizId qs 1).length })
    (QuizActions.buildChoiceItems qs
      (genIds s.nextId (QuizActions.buildQuestionItems quizId qs 1).length)) now hfaults
  unfold QuizActions.replaceQuestions
  simp only [h1, h2, h3, finalFetch_fst]


/-- Membership gives a true `contains` flag (String lists). -/
theorem contains_eq_true_of_mem (l : List String) (a : String) (h : a ∈ l) :
    l.contains a = true := by
  induction l with
  | nil => cases h
  | cons b rest ih =>
      rcases List.mem_cons.1 h with h1 | h2
      · simp [List.contains_cons, h1]
      · simp [List.contains_cons, h2]

/-- A question row of the quiz contributes its id to `oldQuestionIds`. -/
theorem mem_oldQuestionIds (db : DB) (quizId : String) (q0 : QuestionRow)
    (hmem : q0 ∈ db.questions) (hq : q0.quiz_id = quizId) :
    q0.id ∈ oldQuestionIds db quizId := by
  unfold oldQuestionIds QuestionService.getQuestionsByQuiz
  refine List.mem_map.2 ⟨q0, ?_, rfl⟩
  rw [mem_sortBy]
  exact List.mem_filter.2 ⟨hmem, by simp [hq]⟩

/-- C7 (amended): for an owner, under fault-free storage, `updateQuiz` with a
`questions` list present deletes every existing Question row of the quiz (and,
by the schema's cascades, their Choice rows) and replaces them with freshly
inserted questions and choices bearing generated ids and 1-based orders, so
old question/choice ids no longer resolve; the AttemptResponse rows that
referenced the replaced questions are REMOVED by the `attempt_responses`
`question_id` ON DELETE CASCADE foreign key (migration 0007) — none remains —
while with `questions` absent the question, choice and response tables are
untouched. -/
theorem updateQuiz_questions_replacement (s : St) (uid quizId : String)
    (raw : QuizActions.RawUpdateForm) (now : Int) (v : QuizSchema.UpdateData)
    (howner : QuizService.isQuizOwner s.db quizId uid = true)
    (hparse : QuizSchema.parseUpdateQuiz raw.title raw.description raw.instructions
      raw.questions = .ok v)
    (hfaults : s.faults = []) :
    (v.questions = none →
      (QuizActions.updateQuiz s (some uid) quizId raw now).1.db.questions = s.db.questions ∧
      (QuizActions.updateQuiz s (some uid) quizId raw now).1.db.choices = s.db.choices ∧
      (QuizActions.updateQuiz s (some uid) quizId raw now).1.db.attemptResponses =
        s.db.attemptResponses) ∧
    (∀ qs, v.questions = some qs →
      (QuizActions.updateQuiz s (some uid) quizId raw now).1.db.questions =
        s.db.questions.filter (fun q2 => !((oldQuestionIds s.db quizId).contains q2.id)) ++
          QuestionService.buildQuestionRows s.nextId
            (QuizActions.buildQuestionItems quizId qs 1) now ∧
      (QuizActions.updateQuiz s (some uid) quizId raw now).1.db.choices =
        s.db.choices.filter
            (fun c2 => !((oldQuestionIds s.db quizId).contains c2.question_id)) ++
          ChoiceService.buildChoiceRows
            (s.nextId + (QuizActions.buildQuestionItems quizId qs 1).length)
            (QuizActions.buildChoiceItems qs
              (genIds s.nextId (QuizActions.buildQuestionItems quizId qs 1).length)) now ∧
      (∀ r ∈ (QuizActions.updateQuiz s (some uid) quizId raw now).1.db.attemptResponses,
        (oldQuestionIds s.db quizId).contains r.question_id = false) ∧
      ((∀ g ∈ genIds s.nextId (QuizActions.buildQuestionItems quizId qs 1).length,
          ∀ q0 ∈ s.db.questions, q0.id ≠ g) →
        ∀ q0 ∈ s.db.questions, q0.quiz_id = quizId →
          QuestionService.getQuestionById
            (QuizActions.updateQuiz s (some uid) quizId raw now).1.db q0.id = none) ∧
      ((∀ g ∈ genIds (s.nextId + (QuizActions.buildQuestionItems quizId qs 1).length)
            (QuizActions.buildChoiceItems qs
              (genIds s.nextId (QuizActions.buildQuestionItems quizId qs 1).length)).length,
          ∀ c ∈ s.db.choices, c.id ≠ g) →
        (s.db.choices.map (fun c => c.id)).Nodup →
        ∀ c ∈ s.db.choices, (oldQuestionIds s.db quizId).contains c.question_id = true →
          ChoiceService.getChoiceById
            (QuizActions.updateQuiz s (some uid) quizId raw now).1.db c.id = none)) := by
  obtain ⟨q0, hq0⟩ : ∃ q0, QuizService.getQuizById s.db quizId = some q0 := by
    unfold QuizService.isQuizOwner at howner
    cases hg : QuizService.getQuizById s.db quizId with
    | none => rw [hg] at howner; cases howner
    | some q0 => exact ⟨q0, rfl⟩
  have hownerb : (!(QuizService.isQuizOwner s.db quizId uid)) = false := by simp [howner]
  have hkey : ∃ s1 : St,
      s1.db.questions = s.db.questions ∧
      s1.db.choices = s.db.choices ∧
      s1.db.attemptResponses = s.db.attemptResponses ∧
      s1.nextId = s.nextId ∧
      s1.faults = [] ∧
      QuizActions.updateQuiz s (some uid) quizId raw now =
        (match v.questions with
         | none => QuizActions.finalFetch s1 quizId
         | some qs => QuizActions.replaceQuestions s1 quizId qs now) := by
    by_cases hcond : (!(v.title == "") || v.description.isSome || v.instructions.isSome) = true
    · refine ⟨{ s with db := (QuizService.applyUpdateQuiz s.db quizId (some v.title)
        v.description v.instructions now) }, rfl, rfl, rfl, rfl, hfaults, ?_⟩
      unfold QuizActions.updateQuiz
      simp only [hownerb, hparse, hcond,
        updateQuizSvc_ok s quizId v.title v.description v.instructions now q0 hfaults hq0,
        Bool.false_eq_true, if_false]
      simp
    · have hcondf : (!(v.title == "") || v.description.isSome || v.instructions.isSome) = false := by
        simpa using hcond
      refine ⟨s, rfl, rfl, rfl, rfl, hfaults, ?_⟩
      unfold QuizActions.updateQuiz
      simp only [hownerb, hparse, hcondf, Bool.false_eq_true, if_false]
  obtain ⟨s1, hq, hch, hresp, hnext, hf1, hrun⟩ := hkey
  have hgbq : QuestionService.getQuestionsByQuiz s1.db quizId =
      QuestionService.getQuestionsByQuiz s.db quizId := by
    unfold QuestionService.getQuestionsByQuiz
    rw [hq]
  have holdids : (QuestionService.getQuestionsByQuiz s1.db quizId).map (fun q => q.id) =
      oldQuestionIds s.db quizId := by
    rw [hgbq]
    rfl
  constructor
  · intro hnone
    refine ⟨?_, ?_, ?_⟩ <;> simp only [hrun, hnone, finalFetch_fst]
    · exact hq
    · exact hch
    · exact hresp
  · intro qs hsome
    have hrun2 : QuizActions.updateQuiz s (some uid) quizId raw now =
        QuizActions.replaceQuestions s1 quizId qs now := by
      rw [hrun, hsome]
    have hspec := replaceQuestions_spec s1 quizId qs now hf1
    have hQ : (QuizActions.replaceQuestions s1 quizId qs now).1.db.questions =
        s.db.questions.filter (fun q2 => !((oldQuestionIds s.db quizId).contains q2.id)) ++
          QuestionService.buildQuestionRows s.nextId
            (QuizActions.buildQuestionItems quizId qs 1) now := by
      simp only [hspec, applyDeleteQuestions_questions, holdids, hq, hnext]
    have hC : (QuizActions.replaceQuestions s1 quizId qs now).1.db.choices =
        s.db.choices.filter
            (fun c2 => !((oldQuestionIds s.db quizId).contains c2.question_id)) ++
          ChoiceService.buildChoiceRows
            (s.nextId + (QuizActions.buildQuestionItems quizId qs 1).length)
            (QuizActions.buildChoiceItems qs
              (genIds s.nextId (QuizActions.buildQuestionItems quizId qs 1).length)) now := by
      simp only [hspec, applyDeleteQuestions_choices, holdids, hch, hnext]
    have hR : ∀ r ∈ (QuizActions.replaceQuestions s1 quizId qs now).1.db.attemptResponses,
        (oldQuestionIds s.db quizId).contains r.question_id = false := by
      intro r hr
      simp only [hspec] at hr
      have hdel := applyDeleteQuestions_responses_deleted s1.db
        ((QuestionService.getQuestionsByQuiz s1.db quizId).map (fun q => q.id)) r hr
      rwa [holdids] at hdel
    refine ⟨by rw [hrun2]; exact hQ, by rw [hrun2]; exact hC, ?_, ?_, ?_⟩
    · intro r hr
      rw [hrun2] at hr
      exact hR r hr
    · intro hfresh q0m hq0mem hq0quiz
      rw [hrun2]
      unfold QuestionService.getQuestionById
      rw [hQ, List.filter_append]
      have hkept : ((s.db.questions.filter
          (fun q2 => !((oldQuestionIds s.db quizId).contains q2.id))).filter
            (fun x => x.id == q0m.id)) = [] := by
        refine List.filter_eq_nil_iff.2 (fun x hx hbeq => ?_)
        have hxk := (List.mem_filter.1 hx).2
        have hxid : x.id = q0m.id := by simpa using hbeq
        have hq0in : q0m.id ∈ oldQuestionIds s.db quizId :=
          mem_oldQuestionIds s.db quizId q0m hq0mem hq0quiz
        have hmemx : x.id ∈ oldQuestionIds s.db quizId := by
          rw [hxid]
          exact hq0in
        simp at hxk
        exact hxk hmemx
      have hnew : ((QuestionService.buildQuestionRows s.nextId
          (QuizActions.buildQuestionItems quizId qs 1) now).filter
            (fun x => x.id == q0m.id)) = [] := by
        refine List.filter_eq_nil_iff.2 (fun x hx hbeq => ?_)
        have hxid : x.id = q0m.id := by simpa using hbeq
        have hxin : x.id ∈ genIds s.nextId (QuizActions.buildQuestionItems quizId qs 1).length := by
          rw [← buildQuestionRows_map_id s.nextId (QuizActions.buildQuestionItems quizId qs 1) now]
          exact List.mem_map_of_mem _ hx
        exact (hfresh x.id hxin q0m hq0mem) hxid.symm
      rw [hkept, hnew]
      rfl
    · intro hfreshc hnodup c hcmem hccasc
      rw [hrun2]
      unfold ChoiceService.getChoiceById
      rw [hC, List.filter_append]
      have hkept : ((s.db.choices.filter
          (fun c2 => !((oldQuestionIds s.db quizId).contains c2.question_id))).filter
            (fun x => x.id == c.id)) = [] := by
        refine List.filter_eq_nil_iff.2 (fun x hx hbeq => ?_)
        have hxmem := (List.mem_filter.1 hx).1
        have hxk := (List.mem_filter.1 hx).2
        have hxid : x.id = c.id := by simpa using hbeq
        have hxc : x = c := (List.inj_on_of_nodup_map hnodup) hxmem hcmem hxid
        rw [hxc] at hxk
        simp at hxk
        exact hxk (by simpa using hccasc)
      have hnew : ((ChoiceService.buildChoiceRows
          (s.nextId + (QuizActions.buildQuestionItems quizId qs 1).length)
          (QuizActions.buildChoiceItems qs
            (genIds s.nextId (QuizActions.buildQuestionItems quizId qs 1).length)) now).filter
            (fun x => x.id == c.id)) = [] := by
        refine List.filter_eq_nil_iff.2 (fun x hx hbeq => ?_)
        have hxid : x.id = c.id := by simpa using hbeq
        have hxin : x.id ∈ genIds
            (s.nextId + (QuizActions.buildQuestionItems quizId qs 1).length)
            (QuizActions.buildChoiceItems qs
              (genIds s.nextId (QuizActions.buildQuestionItems quizId qs 1).length)).length := by
          rw [← buildChoiceRows_map_id
            (s.nextId + (QuizActions.buildQuestionItems quizId qs 1).length)
            (QuizActions.buildChoiceItems qs
              (genIds s.nextId (QuizActions.buildQuestionItems quizId qs 1).length)) now]
          exact List.mem_map_of_mem _ hx
        exact (hfreshc x.id hxin c hcmem) hxid.symm
      rw [hkept, hnew]
      rfl


/-- C7 counterexample: replacing a quiz's questions succeeds, but the stored
AttemptResponse row `r1` that referenced the replaced question `q1` is NOT
left unmodified — it is removed outright by the `attempt_responses`
`question_id` ON DELETE CASCADE foreign key, leaving only the unrelated row
`r2`; so already-stored responses referencing the old questions do not
survive the replacement. -/
theorem updateQuiz_replacement_deletes_responses_counterexample :
    c7run.2.isOk = true ∧
    Ex.respKept ∈ Ex.dbDangling.attemptResponses ∧
    Ex.respKept.question_id = Ex.questionQ1.id ∧
    Ex.questionQ1 ∈ Ex.dbDangling.questions ∧
    Ex.respKept ∉ c7run.1.db.attemptResponses ∧
    c7run.1.db.attemptResponses = [Ex.respDangling] :=
  ⟨by decide, by decide, by decide, by decide, by decide, by decide⟩

/-- C7 witness: the amended replacement theorem applied at the concrete run
`c7run` shows the old question id `q1` no longer resolves afterwards. -/
theorem updateQuiz_questions_replacement_witness :
    QuestionService.getQuestionById
      (QuizActions.updateQuiz ⟨Ex.dbDangling, 50, []⟩ (some "u1") "z1" c7raw 400).1.db
      "q1" = none := by
  have h := updateQuiz_questions_replacement ⟨Ex.dbDangling, 50, []⟩ "u1" "z1" c7raw 400 c7v
    (by decide) (by decide) rfl
  have h2 := (h.2 [⟨"NQ", none, [⟨"x", true⟩, ⟨"y", false⟩]⟩] rfl).2.2.2.1
  exact h2 (by decide) Ex.questionQ1 (by decide) rfl
